import Mathlib

set_option maxHeartbeats 1600000
set_option maxRecDepth 40000

/-!
Shallow embedding of the conversion engine of the document/image
converter repository: the document converter (converter.ts), the image
converter (image-converter.ts) and the filesystem / process environment
they act on.  External libraries (sharp, Jimp, mammoth, pdf-parse,
turndown, marked, puppeteer, docx, spawned processes) are modelled as
oracles carried by an `Env` record; filesystem state is an explicit
association list; every run returns its result, the final filesystem and
an ordered trace of effect events.
-/

/-- Filesystem: files as an association list from path to content (the
first match wins, so writing prepends a shadowing binding), plus the set
of existing directories. -/
structure FS where
  files : List (String × String)
  dirs : List String
deriving DecidableEq

/-- First-match association-list lookup (models reading a file). -/
def assoc (p : String) : List (String × String) → Option String
  | [] => none
  | (q, v) :: rest => if q = p then some v else assoc p rest

def FS.look (fs : FS) (p : String) : Option String := assoc p fs.files

/-- fs.pathExists: true for an existing file or directory. -/
def FS.pathExists (fs : FS) (p : String) : Bool :=
  (fs.look p).isSome || fs.dirs.contains p

/-- fs.writeFile: the new binding shadows any older one. -/
def FS.write (fs : FS) (p c : String) : FS :=
  { fs with files := (p, c) :: fs.files }

/-- fs.ensureDir. -/
def FS.ensureDir (fs : FS) (d : String) : FS :=
  if fs.dirs.contains d then fs else { fs with dirs := d :: fs.dirs }

/-- stat(p).size for a file (0 when absent). -/
def FS.size (fs : FS) (p : String) : Nat :=
  ((fs.look p).getD "").length

/-- Split a character list at a separator (kernel-reducible stand-in for
String.split used by the path helpers). -/
def splitCh (sep : Char) : List Char → List (List Char)
  | [] => [[]]
  | c :: rest =>
    let r := splitCh sep rest
    if c = sep then [] :: r
    else
      match r with
      | [] => [[c]]
      | h :: t => (c :: h) :: t

def joinWith (sep : Char) : List (List Char) → List Char
  | [] => []
  | [x] => x
  | x :: rest => x ++ sep :: joinWith sep rest

/-- path.extname: the extension of the basename, dot included ("" when
there is none, and a leading dot alone does not start an extension). -/
def extname (p : String) : String :=
  let base := (splitCh '/' p.toList).getLastD []
  let parts := splitCh '.' base
  if parts.length ≤ 1 then ""
  else if (match base with | '.' :: _ => true | _ => false) && parts.length == 2 then ""
  else String.mk ('.' :: parts.getLastD [])

/-- path.dirname for relative paths ("." when there is no separator). -/
def dirname (p : String) : String :=
  let parts := splitCh '/' p.toList
  if parts.length ≤ 1 then "." else String.mk (joinWith '/' parts.dropLast)

/-- path.basename of a plain (slash-free) file name with its extension
stripped. -/
def basenameNoExt (file : String) : String :=
  file.dropRight (extname file).length

def lowerStr (s : String) : String := String.mk (s.toList.map Char.toLower)

def prefHolds : List Char → List Char → Bool
  | [], _ => true
  | _ :: _, [] => false
  | a :: as, b :: bs => a == b && prefHolds as bs

/-- String startsWith, kernel-reducible. -/
def startsWithStr (s pre : String) : Bool := prefHolds pre.toList s.toList

/-- JavaScript String.prototype.includes, via repeated prefix tests. -/
def containsAt : List Char → List Char → Bool
  | _, [] => false
  | pat, c :: rest => prefHolds pat (c :: rest) || containsAt pat rest

def containsStr (s pat : String) : Bool :=
  prefHolds pat.toList s.toList || containsAt pat.toList s.toList

/-- Effect events recorded by a run, in order. -/
inductive Ev where
  | readF (p : String)
  | writeF (p : String)
  | mkdir (p : String)
  | mktemp (p : String)
  | spawn (cmd : String)
  | sharpFile
  | jimpFile
deriving DecidableEq

/-- One operation appended to a sharp pipeline, in call order. -/
inductive SharpOp where
  | svgLoad (density : Nat)
  | resize (w h : Option Nat) (fit : String) (background : String)
  | blur (radius : ℚ)
  | sharpen (amount : ℚ)
  | modulate (brightness saturation hue : Option ℚ)
  | grayscale
  | negate
  | encode (fmt : String) (quality : Nat) (progressive lossless : Bool) (effort : Nat)
  | composite (gravity : String) (overlay : String)
deriving DecidableEq

/-- One operation applied to a Jimp image, in call order. -/
inductive JimpOp where
  | resize (w h : Option Nat)
  | blur (radius : ℚ)
  | brightness (v : ℚ)
  | contrast (v : ℚ)
  | greyscale
  | sepia
  | invert
  | quality (q : Nat)
deriving DecidableEq

structure EffectOptions where
  blur : Option ℚ := none
  sharpen : Option ℚ := none
  brightness : Option ℚ := none
  contrast : Option ℚ := none
  saturation : Option ℚ := none
  hue : Option ℚ := none
  grayscale : Bool := false
  sepia : Bool := false
  invert : Bool := false
deriving DecidableEq

structure WatermarkSpec where
  text : Option String := none
  image : Option String := none
  position : Option String := none
  opacity : Option ℚ := none
  fontSize : Option ℚ := none
  color : Option String := none
deriving DecidableEq

structure ImageConversionOptions where
  quality : Option Nat := none
  width : Option Nat := none
  height : Option Nat := none
  fit : Option String := none
  background : Option String := none
  progressive : Option Bool := none
  lossless : Option Bool := none
  effort : Option Nat := none
  watermark : Option WatermarkSpec := none
  effects : Option EffectOptions := none
deriving DecidableEq

structure PdfOptions where
  format : Option String := none
  landscape : Option Bool := none
  printBackground : Option Bool := none
  scale : Option ℚ := none
  marginTop : Option String := none
  marginRight : Option String := none
  marginBottom : Option String := none
  marginLeft : Option String := none
  header : Option String := none
  footer : Option String := none
  prefer_chinese_fonts : Option Bool := none
deriving DecidableEq

structure ConversionOptions where
  preserve_formatting : Option Bool := none
  extract_images : Option Bool := none
  image_output_dir : Option String := none
  image_options : Option ImageConversionOptions := none
  pdf_options : Option PdfOptions := none
deriving DecidableEq

structure PdfData where
  text : String
  numpages : Nat
  title : Option String := none
  author : Option String := none
deriving DecidableEq

/-- Outcome of one spawned external process: its exit code (none models a
spawn error) and the content it wrote to the target path while running. -/
structure ProcResult where
  exit : Option Int := none
  writes : Option String := none
deriving DecidableEq

/-- Environment: platform facts and oracles for the external libraries
and subprocesses used by the converter. -/
structure Env where
  platform : String
  cwd : String
  tmpDir : String
  mimeLookup : String → Option String
  pdfParse : String → Except String PdfData
  mammothConvertToHtml : String → Except String String
  mammothExtractRawText : String → Except String String
  turndown : String → String
  marked : String → String
  renderPdf : String → Option PdfOptions → Except String String
  packDocx : List String → Except String String
  cscript : ProcResult
  python : ProcResult
  py : ProcResult
  sharpRun : String → List SharpOp → Except String String
  jimpRun : String → List JimpOp → Except String String
  sharpMeta : String → Except String (Nat × Nat)

/-- JavaScript truthiness of an optional number (0 and undefined falsy). -/
def truthyN (o : Option Nat) : Bool := match o with | some n => n != 0 | none => false

def truthyQ (o : Option ℚ) : Bool := match o with | some q => q != 0 | none => false

/-- JavaScript truthiness of an optional string ("" and undefined falsy). -/
def truthyS (o : Option String) : Bool := match o with | some s => s != "" | none => false

/-- JavaScript `a || d` for an optional number. -/
def orN (o : Option Nat) (d : Nat) : Nat := if truthyN o then o.getD d else d

def orQ (o : Option ℚ) (d : ℚ) : ℚ := if truthyQ o then o.getD d else d

def orS (o : Option String) (d : String) : String := if truthyS o then o.getD d else d

/-- JavaScript `b || false` for an optional boolean. -/
def orB (o : Option Bool) : Bool := o.getD false

/-- JavaScript Math.round: nearest integer, ties toward positive
infinity (the floor of q + 1/2, written with the computable Rat.floor). -/
def jsRound (q : ℚ) : ℤ := (q + 1/2).floor

/-- Rounding to two decimals the way convertImage does it:
Math.round(q * 100) / 100. -/
def round2 (q : ℚ) : ℚ := (jsRound (q * 100) : ℚ) / 100

/-- Math.ceil(n / k) on natural inputs. -/
def mathCeilDiv (n k : Nat) : Nat := n / k + (if n % k == 0 then 0 else 1)

/-- image-converter.ts detectImageFormat. -/
def detectImageFormat (env : Env) (p : String) : String :=
  let ext := lowerStr (extname p)
  if ext == ".jpg" || ext == ".jpeg" then "jpeg"
  else if ext == ".png" then "png"
  else if ext == ".webp" then "webp"
  else if ext == ".avif" then "avif"
  else if ext == ".tiff" || ext == ".tif" then "tiff"
  else if ext == ".gif" then "gif"
  else if ext == ".bmp" then "bmp"
  else if ext == ".svg" then "svg"
  else if ext == ".heic" then "heic"
  else if ext == ".heif" then "heif"
  else
    match env.mimeLookup p with
    | some m =>
      if startsWithStr m "image/" then String.mk ((splitCh '/' m.toList).getD 1 [])
      else "unknown"
    | none => "unknown"

/-- getWatermarkGravity. -/
def getWatermarkGravity (position : String) : String :=
  if position == "top-left" then "northwest"
  else if position == "top-right" then "northeast"
  else if position == "bottom-left" then "southwest"
  else if position == "bottom-right" then "southeast"
  else if position == "center" then "center"
  else "southeast"

/-- The SVG text-overlay buffer built by addWatermark for a text
watermark. -/
def watermarkSvg (text : String) (fontSize : ℚ) (color : String) (opacity : ℚ) : String :=
  "<svg width=\"400\" height=\"100\"><text x=\"200\" y=\"50\" font-family=\"Arial\" font-size=\"" ++
    toString fontSize ++ "\" fill=\"" ++ color ++
    "\" text-anchor=\"middle\" dominant-baseline=\"middle\" opacity=\"" ++
    toString opacity ++ "\">" ++ text ++ "</text></svg>"

/-- addWatermark: the composite operations appended to the sharp
pipeline (text watermark preferred, then image watermark, else none). -/
def addWatermarkOps (w : WatermarkSpec) : List SharpOp :=
  if truthyS w.text then
    [SharpOp.composite (getWatermarkGravity (orS w.position "bottom-right"))
      (watermarkSvg (w.text.getD "") (orQ w.fontSize 24)
        (orS w.color "rgba(255, 255, 255, 0.8)") (orQ w.opacity 0.8))]
  else if truthyS w.image then
    [SharpOp.composite (getWatermarkGravity (orS w.position "bottom-right")) (w.image.getD "")]
  else []

/-- The resize step of processImage's sharp path, when requested. -/
def resizeOps (opts : ImageConversionOptions) : List SharpOp :=
  if truthyN opts.width || truthyN opts.height then
    [SharpOp.resize opts.width opts.height (orS opts.fit "inside")
      (orS opts.background "rgba(255,255,255,1)")]
  else []

/-- The effect steps of processImage's sharp path (sepia is not handled
on this path; contrast participates in the modulate condition but is not
passed to modulate, as in the source). -/
def effectOps (eo : Option EffectOptions) : List SharpOp :=
  match eo with
  | none => []
  | some e =>
    (if truthyQ e.blur then [SharpOp.blur (e.blur.getD 0)] else []) ++
    (if truthyQ e.sharpen then [SharpOp.sharpen (e.sharpen.getD 0)] else []) ++
    (if e.brightness.isSome || e.contrast.isSome || e.saturation.isSome || e.hue.isSome then
      [SharpOp.modulate (if truthyQ e.brightness then some (1 + e.brightness.getD 0) else none)
        (if truthyQ e.saturation then some (1 + e.saturation.getD 0) else none) e.hue]
     else []) ++
    (if e.grayscale then [SharpOp.grayscale] else []) ++
    (if e.invert then [SharpOp.negate] else [])

/-- The output-format call of processImage (target already lowercased,
one of the sharp-encodable formats). -/
def encodeOp (t : String) (opts : ImageConversionOptions) : SharpOp :=
  if t == "jpeg" || t == "jpg" then
    SharpOp.encode "jpeg" (orN opts.quality 80) (orB opts.progressive) false 0
  else if t == "png" then
    SharpOp.encode "png" (orN opts.quality 80) (orB opts.progressive) false 0
  else if t == "webp" then
    SharpOp.encode "webp" (orN opts.quality 80) false (orB opts.lossless) (orN opts.effort 4)
  else if t == "avif" then
    SharpOp.encode "avif" (orN opts.quality 80) false (orB opts.lossless) (orN opts.effort 4)
  else
    SharpOp.encode "tiff" (orN opts.quality 80) false false 0

/-- Target formats that the sharp path of processImage can encode. -/
def sharpEncodable : List String := ["jpeg", "jpg", "png", "webp", "avif", "tiff"]

/-- The sharp pipeline processImage builds for a sharp-encodable target:
resize, then effects, then output format, then watermark composite. -/
def sharpOps (opts : ImageConversionOptions) (t : String) : List SharpOp :=
  resizeOps opts ++ effectOps opts.effects ++ [encodeOp t opts] ++
    (match opts.watermark with
     | some w => addWatermarkOps w
     | none => [])

/-- processWithJimp: the Jimp operation list (resize, effects, quality
for jpeg targets). -/
def jimpOps (opts : ImageConversionOptions) (targetFormat : String) : List JimpOp :=
  (if truthyN opts.width || truthyN opts.height then
    [JimpOp.resize (if truthyN opts.width then opts.width else none)
      (if truthyN opts.height then opts.height else none)]
   else []) ++
  (match opts.effects with
   | none => []
   | some e =>
     (if truthyQ e.blur then [JimpOp.blur (e.blur.getD 0)] else []) ++
     (match e.brightness with | some b => [JimpOp.brightness b] | none => []) ++
     (match e.contrast with | some c => [JimpOp.contrast c] | none => []) ++
     (if e.grayscale then [JimpOp.greyscale] else []) ++
     (if e.sepia then [JimpOp.sepia] else []) ++
     (if e.invert then [JimpOp.invert] else [])) ++
  (if truthyN opts.quality && (targetFormat == "jpeg" || targetFormat == "jpg") then
    [JimpOp.quality (opts.quality.getD 0)]
   else [])

/-- processWithJimp: decode with Jimp from the input path, apply the
operations, write the output.  Any failure is thrown (an `.error`). -/
def processWithJimp (env : Env) (fs : FS) (inputPath outputPath targetFormat : String)
    (opts : ImageConversionOptions) : Except String Unit × FS × List Ev :=
  match fs.look inputPath with
  | none => (Except.error ("ENOENT: no such file " ++ inputPath), fs, [Ev.readF inputPath])
  | some content =>
    match env.jimpRun content (jimpOps opts targetFormat) with
    | Except.error e => (Except.error e, fs, [Ev.readF inputPath, Ev.jimpFile])
    | Except.ok bytes =>
      (Except.ok (), fs.write outputPath bytes,
        [Ev.readF inputPath, Ev.jimpFile, Ev.writeF outputPath])

/-- applySharpFormat: the encode call of the SVG path (targets outside
the sharp-encodable set leave the pipeline unchanged). -/
def applySharpFormatOps (t : String) (opts : ImageConversionOptions) : List SharpOp :=
  if t == "jpeg" || t == "jpg" || t == "png" || t == "webp" || t == "avif" || t == "tiff" then
    [encodeOp t opts]
  else []

/-- The sharp pipeline of processSvgImage: density-300 load, optional
resize with 800x600 defaults, applySharpFormat; no effects, no
watermark. -/
def svgOps (opts : ImageConversionOptions) (targetFormat : String) : List SharpOp :=
  [SharpOp.svgLoad 300] ++
  (if truthyN opts.width || truthyN opts.height then
    [SharpOp.resize (some (orN opts.width 800)) (some (orN opts.height 600))
      (orS opts.fit "inside") (orS opts.background "rgba(255,255,255,1)")]
   else []) ++
  applySharpFormatOps (lowerStr targetFormat) opts

/-- processSvgImage: sharp only, no Jimp fallback. -/
def processSvgImage (env : Env) (fs : FS) (inputPath outputPath targetFormat : String)
    (opts : ImageConversionOptions) : Except String Unit × FS × List Ev :=
  match fs.look inputPath with
  | none =>
    (Except.error ("ENOENT: no such file " ++ inputPath), fs, [Ev.readF inputPath, Ev.sharpFile])
  | some content =>
    match env.sharpRun content (svgOps opts targetFormat) with
    | Except.error e => (Except.error e, fs, [Ev.readF inputPath, Ev.sharpFile])
    | Except.ok bytes =>
      (Except.ok (), fs.write outputPath bytes,
        [Ev.readF inputPath, Ev.sharpFile, Ev.writeF outputPath])

/-- The HTML page convertImageToPdf renders (image as a data URI). -/
def imagePdfHtml (mimeType base64 : String) : String :=
  "<!DOCTYPE html><html><head><style>body \x7b margin: 0; padding: 20px; display: flex; justify-content: center; align-items: center; min-height: 100vh; \x7d img \x7b max-width: 100%; max-height: 100%; object-fit: contain; \x7d</style></head><body><img src=\"data:" ++
    mimeType ++ ";base64," ++ base64 ++ "\" alt=\"Image\" /></body></html>"

/-- convertImageToPdf: embed the image in an HTML page and render it to a
PDF with puppeteer. -/
def convertImageToPdf (env : Env) (fs : FS) (inputPath outputPath : String)
    (opts : ImageConversionOptions) : Except String Unit × FS × List Ev :=
  match fs.look inputPath with
  | none => (Except.error ("ENOENT: no such file " ++ inputPath), fs, [Ev.readF inputPath])
  | some content =>
    match env.renderPdf (imagePdfHtml ((env.mimeLookup inputPath).getD "image/jpeg") content) none with
    | Except.error e => (Except.error e, fs, [Ev.readF inputPath, Ev.spawn "render"])
    | Except.ok bytes =>
      (Except.ok (), fs.write outputPath bytes,
        [Ev.readF inputPath, Ev.spawn "render", Ev.writeF outputPath])

/-- processImage (image-converter.ts): SVG routes to the sharp-only SVG
path before the try/catch; sharp-encodable targets run sharp with a Jimp
fallback on a thrown sharp error; GIF/BMP route to Jimp; PDF routes to
the HTML render path; an unknown target throws inside the try, so its
catch also falls back to Jimp. -/
def processImage (env : Env) (fs : FS) (inputPath outputPath targetFormat : String)
    (opts : ImageConversionOptions) : Except String Unit × FS × List Ev :=
  if detectImageFormat env inputPath == "svg" then
    processSvgImage env fs inputPath outputPath targetFormat opts
  else
    let t := lowerStr targetFormat
    if sharpEncodable.contains t then
      match fs.look inputPath with
      | none =>
        let r := processWithJimp env fs inputPath outputPath targetFormat opts
        (r.1, r.2.1, [Ev.readF inputPath, Ev.sharpFile] ++ r.2.2)
      | some content =>
        match env.sharpRun content (sharpOps opts t) with
        | Except.ok bytes =>
          (Except.ok (), fs.write outputPath bytes,
            [Ev.readF inputPath, Ev.sharpFile, Ev.writeF outputPath])
        | Except.error _ =>
          let r := processWithJimp env fs inputPath outputPath targetFormat opts
          (r.1, r.2.1, [Ev.readF inputPath, Ev.sharpFile] ++ r.2.2)
    else if t == "gif" || t == "bmp" then
      processWithJimp env fs inputPath outputPath targetFormat opts
    else if t == "pdf" then
      convertImageToPdf env fs inputPath outputPath opts
    else
      processWithJimp env fs inputPath outputPath targetFormat opts

structure ImageConversionResult where
  success : Bool
  output_path : String
  message : String
  original_size : Option Nat := none
  new_size : Option Nat := none
  compression_ratio : Option ℚ := none
deriving DecidableEq

/-- The body of convertImage's try block. -/
def convertImageBody (env : Env) (fs : FS) (inputPath outputPath targetFormat : String)
    (opts : ImageConversionOptions) : Except String ImageConversionResult × FS × List Ev :=
  if !(fs.pathExists inputPath) then
    (Except.error ("Input file does not exist: " ++ inputPath), fs, [])
  else
    let fs1 := fs.ensureDir (dirname outputPath)
    match fs1.look inputPath with
    | none =>
      (Except.error ("ENOENT: no such file " ++ inputPath), fs1, [Ev.mkdir (dirname outputPath)])
    | some inContent =>
      let originalSize := inContent.length
      let inputFormat := detectImageFormat env inputPath
      match processImage env fs1 inputPath outputPath targetFormat opts with
      | (Except.error e, fs2, tr) => (Except.error e, fs2, Ev.mkdir (dirname outputPath) :: tr)
      | (Except.ok _, fs2, tr) =>
        match fs2.look outputPath with
        | none =>
          (Except.error ("ENOENT: no such file " ++ outputPath), fs2,
            Ev.mkdir (dirname outputPath) :: tr)
        | some outContent =>
          let newSize := outContent.length
          (Except.ok
            { success := true
              output_path := outputPath
              message := "Successfully converted " ++ inputFormat ++ " to " ++ targetFormat
              original_size := some originalSize
              new_size := some newSize
              compression_ratio :=
                some (round2 (((originalSize : ℚ) - (newSize : ℚ)) / (originalSize : ℚ) * 100)) },
            fs2, Ev.mkdir (dirname outputPath) :: tr)

/-- convertImage: the try/catch wrapper normalizing any thrown error into
a success:false result. -/
def convertImage (env : Env) (fs : FS) (inputPath outputPath targetFormat : String)
    (opts : ImageConversionOptions) : ImageConversionResult × FS × List Ev :=
  match convertImageBody env fs inputPath outputPath targetFormat opts with
  | (Except.ok r, fs2, tr) => (r, fs2, tr)
  | (Except.error e, fs2, tr) =>
    ({ success := false, output_path := outputPath,
       message := "Image conversion failed: " ++ e }, fs2, tr)

/-- The extension filter of batchConvertImages. -/
def batchImageExts : List String :=
  [".jpg", ".jpeg", ".png", ".webp", ".avif", ".tiff", ".tif", ".gif", ".bmp", ".svg",
   ".heic", ".heif"]

/-- fs.readdir: names of the direct children of a directory. -/
def readdir (fs : FS) (d : String) : List String :=
  fs.files.filterMap (fun pc =>
    if startsWithStr pc.1 (d ++ "/") then
      let rest := (pc.1.toList.drop (d.toList.length + 1))
      if rest.elem '/' then none else some (String.mk rest)
    else none)

/-- One iteration of batchConvertImages' loop: convert one file, append
its per-file result, bump exactly one counter. -/
def batchStep (env : Env) (inputDir outputDir targetFormat : String)
    (opts : ImageConversionOptions) (acc : (Nat × Nat × List ImageConversionResult) × FS × List Ev)
    (file : String) : (Nat × Nat × List ImageConversionResult) × FS × List Ev :=
  let inputPath := inputDir ++ "/" ++ file
  let outputPath := outputDir ++ "/" ++ (basenameNoExt file ++ "." ++ targetFormat)
  let r := convertImage env acc.2.1 inputPath outputPath targetFormat opts
  ((acc.1.1 + (if r.1.success then 1 else 0),
    acc.1.2.1 + (if r.1.success then 0 else 1),
    acc.1.2.2 ++ [r.1]), r.2.1, acc.2.2 ++ r.2.2)

/-- batchConvertImages: filter by supported image extension, convert each
file independently, aggregate counts and per-file results. -/
def batchConvertImages (env : Env) (fs : FS) (inputDir outputDir targetFormat : String)
    (opts : ImageConversionOptions) : (Nat × Nat × List ImageConversionResult) × FS × List Ev :=
  let fs0 := fs.ensureDir outputDir
  let files := readdir fs inputDir
  let imageFiles := files.filter (fun f => batchImageExts.contains (lowerStr (extname f)))
  imageFiles.foldl (batchStep env inputDir outputDir targetFormat opts)
    ((0, 0, []), fs0, [Ev.mkdir outputDir])

/-- The image-format tags convertDocument dispatches to the image
converter. -/
def docImageFormats : List String :=
  ["jpeg", "jpg", "png", "webp", "avif", "tiff", "gif", "bmp", "svg", "heic", "heif"]

/-- converter.ts detectFormat. -/
def detectFormat (env : Env) (p : String) : String :=
  let ext := lowerStr (extname p)
  if ext == ".pdf" then "pdf"
  else if ext == ".docx" then "docx"
  else if ext == ".doc" then "doc"
  else if ext == ".html" || ext == ".htm" then "html"
  else if ext == ".md" || ext == ".markdown" then "md"
  else if ext == ".txt" then "txt"
  else if ext == ".jpg" || ext == ".jpeg" then "jpeg"
  else if ext == ".png" then "png"
  else if ext == ".webp" then "webp"
  else if ext == ".avif" then "avif"
  else if ext == ".tiff" || ext == ".tif" then "tiff"
  else if ext == ".gif" then "gif"
  else if ext == ".bmp" then "bmp"
  else if ext == ".svg" then "svg"
  else if ext == ".heic" then "heic"
  else if ext == ".heif" then "heif"
  else
    match env.mimeLookup p with
    | some m =>
      if containsStr m "pdf" then "pdf"
      else if containsStr m "word" then "docx"
      else if containsStr m "html" then "html"
      else if startsWithStr m "image/" then String.mk ((splitCh '/' m.toList).getD 1 [])
      else "txt"
    | none => "txt"

/-- The intermediate document representation handed from the read stage
to the write stage. -/
structure DocContent where
  text : String
  html : Option String := none
deriving DecidableEq

/-- readDocument: read the source into the intermediate representation. -/
def readDocument (env : Env) (fs : FS) (filePath fmt : String) :
    Except String DocContent × List Ev :=
  match fs.look filePath with
  | none => (Except.error ("ENOENT: no such file " ++ filePath), [Ev.readF filePath])
  | some buf =>
    if fmt == "pdf" then
      match env.pdfParse buf with
      | Except.error e => (Except.error e, [Ev.readF filePath])
      | Except.ok d => (Except.ok { text := d.text }, [Ev.readF filePath])
    else if fmt == "docx" then
      match env.mammothConvertToHtml buf with
      | Except.error e => (Except.error e, [Ev.readF filePath])
      | Except.ok h =>
        match env.mammothExtractRawText buf with
        | Except.error e => (Except.error e, [Ev.readF filePath])
        | Except.ok t => (Except.ok { text := t, html := some h }, [Ev.readF filePath])
    else if fmt == "html" then
      (Except.ok { text := env.turndown buf, html := some buf }, [Ev.readF filePath])
    else if fmt == "md" then
      (Except.ok { text := buf, html := some (env.marked buf) }, [Ev.readF filePath])
    else
      (Except.ok { text := buf }, [Ev.readF filePath])

/-- The minimal styled HTML shell of writeDocument's html target. -/
def htmlShell (html : String) : String :=
  "<!DOCTYPE html>\n<html>\n<head>\n  <meta charset=\"UTF-8\">\n  <title>Converted Document</title>\n  <style>\n    body \x7b font-family: Arial, sans-serif; max-width: 800px; margin: 0 auto; padding: 20px; \x7d\n    pre \x7b background: #f5f5f5; padding: 10px; border-radius: 5px; \x7d\n    code \x7b background: #f5f5f5; padding: 2px 4px; border-radius: 3px; \x7d\n  </style>\n</head>\n<body>\n" ++
    html ++ "\n</body>\n</html>"

def chineseFontStack : String :=
  "\x27Microsoft YaHei\x27,\x27SimSun\x27,\x27Noto Sans SC\x27,\x27Arial\x27,sans-serif"

/-- The HTML shell convertToPdf renders (the font stack depends on the
prefer_chinese_fonts option, default true). -/
def pdfHtmlShell (fontFamily html : String) : String :=
  "<!DOCTYPE html>\n<html>\n<head>\n  <meta charset=\"UTF-8\">\n  <style>\n    body \x7b font-family: " ++
    fontFamily ++
    "; line-height: 1.6; margin: 40px; \x7d\n    h1, h2, h3 \x7b color: #333; \x7d\n    pre \x7b background: #f5f5f5; padding: 10px; border-radius: 5px; \x7d\n    code \x7b background: #f5f5f5; padding: 2px 4px; border-radius: 3px; \x7d\n  </style>\n</head>\n<body>\n" ++
    html ++ "\n</body>\n</html>"

/-- convertToPdf: render the HTML (or markdown-rendered text) to a PDF
via puppeteer; the browser handle is released on every exit path. -/
def convertToPdf (env : Env) (fs : FS) (content : DocContent) (outputPath : String)
    (opts : ConversionOptions) : Except String Unit × FS × List Ev :=
  let html0 :=
    if truthyS content.html && !(opts.preserve_formatting == some false) then content.html.getD ""
    else env.marked content.text
  let preferChinese :=
    match opts.pdf_options with
    | some po => po.prefer_chinese_fonts.getD true
    | none => true
  let fontFamily := if preferChinese then chineseFontStack else "Arial, sans-serif"
  match env.renderPdf (pdfHtmlShell fontFamily html0) opts.pdf_options with
  | Except.error e => (Except.error e, fs, [Ev.spawn "render"])
  | Except.ok bytes =>
    (Except.ok (), fs.write outputPath bytes, [Ev.spawn "render", Ev.writeF outputPath])

/-- convertToDocx: one paragraph per line, packed by the docx backend. -/
def convertToDocx (env : Env) (fs : FS) (content : DocContent) (outputPath : String) :
    Except String Unit × FS × List Ev :=
  match env.packDocx (content.text.splitOn "\n") with
  | Except.error e => (Except.error e, fs, [])
  | Except.ok bytes => (Except.ok (), fs.write outputPath bytes, [Ev.writeF outputPath])

/-- writeDocument: write the intermediate representation as the target
format; unknown targets throw before writing anything. -/
def writeDocument (env : Env) (fs : FS) (content : DocContent) (outputPath fmt : String)
    (opts : ConversionOptions) : Except String Unit × FS × List Ev :=
  if fmt == "txt" then
    (Except.ok (), fs.write outputPath content.text, [Ev.writeF outputPath])
  else if fmt == "md" then
    let markdown :=
      if truthyS content.html then env.turndown (content.html.getD "") else content.text
    (Except.ok (), fs.write outputPath markdown, [Ev.writeF outputPath])
  else if fmt == "html" then
    let h := if truthyS content.html then content.html.getD "" else env.marked content.text
    (Except.ok (), fs.write outputPath (htmlShell h), [Ev.writeF outputPath])
  else if fmt == "pdf" then
    convertToPdf env fs content outputPath opts
  else if fmt == "docx" then
    convertToDocx env fs content outputPath
  else
    (Except.error ("Unsupported output format: " ++ fmt), fs, [])

/-- The VBScript written by convertDocxToPdfViaWordCom. -/
def vbsScript : String :=
  "On Error Resume Next\r\nDim inputPath, outputPath\r\ninputPath = WScript.Arguments(0)\r\noutputPath = WScript.Arguments(1)\r\nDim word\r\nSet word = CreateObject(\"Word.Application\")\r\nIf Err.Number <> 0 Then WScript.Quit 1\r\nword.Visible = False\r\nDim doc\r\nSet doc = word.Documents.Open(inputPath)\r\nIf Err.Number <> 0 Then WScript.Quit 2\r\ndoc.ExportAsFixedFormat outputPath, 17\r\ndoc.Close False\r\nword.Quit"

/-- convertDocxToPdfViaWordCom: only on win32; writes a temporary
VBScript, spawns cscript on it, and succeeds iff the exit code is 0 and
the output file exists with nonzero size. -/
def convertDocxToPdfViaWordCom (env : Env) (fs : FS) (inputPath outputPath : String) :
    Bool × FS × List Ev :=
  if env.platform != "win32" then (false, fs, [])
  else
    let vbsPath := env.tmpDir ++ "/docx2pdf.vbs"
    let fs1 := (fs.ensureDir env.tmpDir).write vbsPath vbsScript
    let tr := [Ev.mktemp env.tmpDir, Ev.writeF vbsPath, Ev.spawn "cscript"]
    match env.cscript.exit with
    | none => (false, fs1, tr)
    | some code =>
      let fs2 :=
        match env.cscript.writes with
        | some c => fs1.write outputPath c
        | none => fs1
      ((code == 0) && fs2.pathExists outputPath && (fs2.size outputPath != 0), fs2, tr)

/-- One spawned interpreter run of the python helper. -/
def runHelper (pr : ProcResult) (fs : FS) (outputPath cmd : String) : Bool × FS × List Ev :=
  match pr.exit with
  | none => (false, fs, [Ev.spawn cmd])
  | some code =>
    let fs2 :=
      match pr.writes with
      | some c => fs.write outputPath c
      | none => fs
    (code == 0, fs2, [Ev.spawn cmd])

/-- convertDocxToPdfViaPython: requires the DocumentAssistant script to
exist; tries python, then py -3; succeeds iff some run exits cleanly and
the output file exists with nonzero size. -/
def convertDocxToPdfViaPython (env : Env) (fs : FS) (inputPath outputPath : String) :
    Bool × FS × List Ev :=
  let scriptPath := env.cwd ++ "/DocumentAssistant/docx_to_pdf_converter.py"
  if !(fs.pathExists scriptPath) then (false, fs, [])
  else
    let r1 := runHelper env.python fs outputPath "python"
    let r2 := if r1.1 then (r1.1, r1.2.1, ([] : List Ev)) else runHelper env.py r1.2.1 outputPath "py"
    if r2.1 && r2.2.1.pathExists outputPath && (r2.2.1.size outputPath != 0) then
      (true, r2.2.1, r1.2.2 ++ r2.2.2)
    else (false, r2.2.1, r1.2.2 ++ r2.2.2)

structure ConvMetadata where
  original_size : Option Nat := none
  new_size : Option Nat := none
  compression_ratio : Option ℚ := none
deriving DecidableEq

structure ConversionResult where
  success : Bool
  output_path : String
  message : String
  metadata : Option ConvMetadata := none
deriving DecidableEq

/-- The generic read-then-write path of convertDocument. -/
def docGeneric (env : Env) (fs : FS) (inputPath outputPath targetFormat : String)
    (opts : ConversionOptions) (inputFormat : String) :
    Except String ConversionResult × FS × List Ev :=
  match readDocument env fs inputPath inputFormat with
  | (Except.error e, tr) => (Except.error e, fs, tr)
  | (Except.ok content, tr) =>
    match writeDocument env fs content outputPath targetFormat opts with
    | (Except.error e, fs2, tr2) => (Except.error e, fs2, tr ++ tr2)
    | (Except.ok _, fs2, tr2) =>
      (Except.ok
        { success := true, output_path := outputPath,
          message := "Successfully converted " ++ inputFormat ++ " to " ++ targetFormat },
       fs2, tr ++ tr2)

/-- The body of convertDocument's try block: existence check, ensureDir,
format detection, the DOCX to PDF strategy chain, the image dispatch,
then the generic read/write path. -/
def convertDocumentBody (env : Env) (fs : FS) (inputPath outputPath targetFormat : String)
    (opts : ConversionOptions) : Except String ConversionResult × FS × List Ev :=
  if !(fs.pathExists inputPath) then
    (Except.error ("Input file does not exist: " ++ inputPath), fs, [])
  else
    let fs1 := fs.ensureDir (dirname outputPath)
    let inputFormat := detectFormat env inputPath
    if inputFormat == "docx" && targetFormat == "pdf" then
      match convertDocxToPdfViaWordCom env fs1 inputPath outputPath with
      | (true, fs2, tr) =>
        (Except.ok
          { success := true, output_path := outputPath,
            message := "Successfully converted docx to pdf via Microsoft Word (COM)" },
         fs2, Ev.mkdir (dirname outputPath) :: tr)
      | (false, fs2, tr) =>
        match convertDocxToPdfViaPython env fs2 inputPath outputPath with
        | (true, fs3, tr2) =>
          (Except.ok
            { success := true, output_path := outputPath,
              message := "Successfully converted docx to pdf via DocumentAssistant script" },
           fs3, Ev.mkdir (dirname outputPath) :: (tr ++ tr2))
        | (false, fs3, tr2) =>
          let g := docGeneric env fs3 inputPath outputPath targetFormat opts inputFormat
          (g.1, g.2.1, Ev.mkdir (dirname outputPath) :: (tr ++ tr2 ++ g.2.2))
    else if docImageFormats.contains inputFormat then
      let r := convertImage env fs1 inputPath outputPath targetFormat (opts.image_options.getD {})
      (Except.ok
        { success := r.1.success, output_path := r.1.output_path, message := r.1.message,
          metadata := some
            { original_size := r.1.original_size, new_size := r.1.new_size,
              compression_ratio := r.1.compression_ratio } },
       r.2.1, Ev.mkdir (dirname outputPath) :: r.2.2)
    else
      let g := docGeneric env fs1 inputPath outputPath targetFormat opts inputFormat
      (g.1, g.2.1, Ev.mkdir (dirname outputPath) :: g.2.2)

/-- convertDocument: the try/catch wrapper normalizing any thrown error
into a success:false result. -/
def convertDocument (env : Env) (fs : FS) (inputPath outputPath targetFormat : String)
    (opts : ConversionOptions) : ConversionResult × FS × List Ev :=
  match convertDocumentBody env fs inputPath outputPath targetFormat opts with
  | (Except.ok r, fs2, tr) => (r, fs2, tr)
  | (Except.error e, fs2, tr) =>
    ({ success := false, output_path := outputPath,
       message := "Conversion failed: " ++ e }, fs2, tr)

structure DocumentInfo where
  format : String
  size : Nat
  pages : Option Nat := none
  title : Option String := none
  author : Option String := none
deriving DecidableEq

/-- getDocumentInfo: stat and format detection, then best-effort metadata
extraction whose failures are swallowed (the try/catch around the
metadata block returns the bare info on any error). -/
def getDocumentInfo (env : Env) (fs : FS) (filePath : String) :
    Except String DocumentInfo × List Ev :=
  match fs.look filePath with
  | none => (Except.error ("ENOENT: no such file " ++ filePath), [])
  | some buf =>
    let fmt := detectFormat env filePath
    let base : DocumentInfo := { format := fmt, size := buf.length }
    if docImageFormats.contains fmt then
      match env.sharpMeta buf with
      | Except.ok _ =>
        (Except.ok
          { format := detectImageFormat env filePath, size := buf.length, pages := some 1,
            title := some (basenameNoExt (String.mk ((splitCh '/' filePath.toList).getLastD []))) },
         [Ev.readF filePath])
      | Except.error _ => (Except.ok base, [Ev.readF filePath])
    else if fmt == "pdf" then
      match env.pdfParse buf with
      | Except.ok d =>
        (Except.ok { base with pages := some d.numpages, title := d.title, author := d.author },
          [Ev.readF filePath])
      | Except.error _ => (Except.ok base, [Ev.readF filePath])
    else if fmt == "docx" then
      match env.mammothExtractRawText buf with
      | Except.ok v =>
        (Except.ok { base with pages := some (mathCeilDiv v.length 2000) }, [Ev.readF filePath])
      | Except.error _ => (Except.ok base, [Ev.readF filePath])
    else
      (Except.ok base, [])

/-- getSupportedFormats' image output formats. -/
def imageOutputFormats : List String :=
  ["jpg", "jpeg", "png", "webp", "avif", "tiff", "gif", "bmp", "pdf"]

/-- The Conversion Matrix reported by getSupportedFormats. -/
def conversionMatrix : List (String × List String) :=
  [("pdf", ["txt", "md", "html"]),
   ("docx", ["txt", "md", "html", "pdf"]),
   ("html", ["txt", "md", "pdf"]),
   ("md", ["html", "pdf", "txt"]),
   ("txt", ["html", "md", "pdf"]),
   ("jpg", imageOutputFormats), ("jpeg", imageOutputFormats), ("png", imageOutputFormats),
   ("webp", imageOutputFormats), ("avif", imageOutputFormats), ("tiff", imageOutputFormats),
   ("gif", imageOutputFormats), ("bmp", imageOutputFormats), ("svg", imageOutputFormats),
   ("heic", imageOutputFormats), ("heif", imageOutputFormats)]

/-- Whether (source, target) is a pair of the Conversion Matrix. -/
def matrixAllows (src tgt : String) : Bool :=
  match conversionMatrix.find? (fun e => e.1 == src) with
  | some e => e.2.contains tgt
  | none => false

/-- Output raster dimensions of a sharp resize (model of the sharp
library's documented fit semantics: cover, fill and contain produce
exactly the requested box; inside and outside preserve aspect ratio; a
missing edge is computed from the aspect ratio). -/
def resizeDims (w h : Option Nat) (fit : String) (d : Nat × Nat) : Nat × Nat :=
  match w, h with
  | some w, some h =>
    if fit == "cover" || fit == "fill" || fit == "contain" then (w, h)
    else if fit == "inside" then
      if d.1 * h ≤ d.2 * w then (max 1 (d.1 * h / max 1 d.2), h)
      else (w, max 1 (d.2 * w / max 1 d.1))
    else
      if d.1 * h ≤ d.2 * w then (w, max 1 (d.2 * w / max 1 d.1))
      else (max 1 (d.1 * h / max 1 d.2), h)
  | some w, none => (w, max 1 (d.2 * w / max 1 d.1))
  | none, some h => (max 1 (d.1 * h / max 1 d.2), h)
  | none, none => d

/-- Dimension effect of one sharp operation: only resize changes the
raster dimensions; effects, encode settings and composite keep them. -/
def opDims (d : Nat × Nat) : SharpOp → Nat × Nat
  | SharpOp.resize w h fit _ => resizeDims w h fit d
  | _ => d

/-- The dimensions against which the first composite (watermark) of a
pipeline is anchored: those in effect when the composite is reached. -/
def anchorDims (d : Nat × Nat) : List SharpOp → Option (Nat × Nat)
  | [] => none
  | SharpOp.composite _ _ :: _ => some d
  | op :: rest => anchorDims (opDims d op) rest

/-- Strategy labels of the DOCX to PDF fallback chain. -/
inductive Strat where
  | wordCom
  | pythonScript
  | htmlRender
deriving DecidableEq

/-- The strategy attempts recorded by a trace, in order. -/
def stratsOf (tr : List Ev) : List Strat :=
  tr.filterMap (fun e =>
    match e with
    | Ev.spawn c =>
      if c == "cscript" then some Strat.wordCom
      else if c == "python" then some Strat.pythonScript
      else if c == "render" then some Strat.htmlRender
      else none
    | _ => none)

/-- The catch-wrapper of convertDocument as a function of the body
outcome. -/
def wrapDoc (out : String) (r : Except String ConversionResult) : ConversionResult :=
  match r with
  | Except.ok v => v
  | Except.error e =>
    { success := false, output_path := out, message := "Conversion failed: " ++ e }

/-! Concrete environments and filesystems used to evaluate the embedding
on closed inputs. -/

/-- A baseline environment: Linux platform, total markdown/turndown,
failing document parsers, succeeding renderers and codecs. -/
def env0 : Env :=
  { platform := "linux", cwd := "/app", tmpDir := "/tmp/t",
    mimeLookup := fun _ => none,
    pdfParse := fun _ => Except.error "pdf parse error",
    mammothConvertToHtml := fun _ => Except.error "mammoth error",
    mammothExtractRawText := fun _ => Except.error "mammoth error",
    turndown := fun s => s,
    marked := fun s => s,
    renderPdf := fun _ _ => Except.ok "PDFBYTES",
    packDocx := fun _ => Except.ok "DOCXBYTES",
    cscript := {}, python := {}, py := {},
    sharpRun := fun _ _ => Except.ok "SHARPBYTES",
    jimpRun := fun _ _ => Except.ok "JIMPBYTES",
    sharpMeta := fun _ => Except.error "sharp metadata error" }

/-- A string of a given byte length. -/
def mkStr (n : Nat) : String := String.mk (List.replicate n 'a')

def fsEmpty : FS := { files := [], dirs := [] }

def fsTxt : FS := { files := [("in.txt", "hello")], dirs := [] }

def fsMd : FS := { files := [("a.md", "x")], dirs := [] }

def fsDocx : FS := { files := [("in.docx", "DOCXBYTES")], dirs := [] }

def fsPng : FS := { files := [("in.png", "PNGBYTES")], dirs := [] }

def envSharpFail : Env := { env0 with sharpRun := fun _ _ => Except.error "sharp decode failed" }

def fsSvg : FS := { files := [("in.svg", "<svg/>")], dirs := [] }

def envSharp800 : Env := { env0 with sharpRun := fun _ _ => Except.ok (mkStr 800) }

def envSharp1200 : Env := { env0 with sharpRun := fun _ _ => Except.ok (mkStr 1200) }

def fs1000 : FS := { files := [("in.png", mkStr 1000)], dirs := [] }

def envWinCom : Env := { env0 with platform := "win32", tmpDir := "/tmp/vbstemp" }

def envMammoth : Env :=
  { env0 with
    mammothConvertToHtml := fun _ => Except.ok "<p>x</p>",
    mammothExtractRawText := fun _ => Except.ok "xtext" }

def envRawTen : Env := { env0 with mammothExtractRawText := fun _ => Except.ok "0123456789" }

def optsWm : ImageConversionOptions :=
  { width := some 100, height := some 100, fit := some "cover",
    watermark := some { text := some "W" } }

/-! Helper lemmas about the filesystem model and traces. -/

theorem look_ensureDir (fs : FS) (d p : String) : (fs.ensureDir d).look p = fs.look p := by
  unfold FS.ensureDir FS.look
  split <;> rfl

theorem files_ensureDir (fs : FS) (d : String) : (fs.ensureDir d).files = fs.files := by
  unfold FS.ensureDir
  split <;> rfl

theorem dirs_write (fs : FS) (p c : String) : (fs.write p c).dirs = fs.dirs := rfl

theorem look_write_self (fs : FS) (p c : String) : (fs.write p c).look p = some c := by
  simp [FS.write, FS.look, assoc]

theorem look_write_ne (fs : FS) (p c q : String) (h : q ≠ p) :
    (fs.write p c).look q = fs.look q := by
  simp only [FS.write, FS.look, assoc]
  rw [if_neg (fun hpq => h hpq.symm)]

theorem contains_ensureDir_self (fs : FS) (d : String) :
    (fs.ensureDir d).dirs.contains d = true := by
  unfold FS.ensureDir
  split
  · assumption
  · simp

theorem contains_ensureDir_mono (fs : FS) (d x : String) (h : fs.dirs.contains x = true) :
    (fs.ensureDir d).dirs.contains x = true := by
  unfold FS.ensureDir
  split
  · exact h
  · simp_all

theorem pathExists_of_look (fs : FS) (p : String) (c : String) (h : fs.look p = some c) :
    fs.pathExists p = true := by
  simp [FS.pathExists, h]

theorem stratsOf_append (a b : List Ev) : stratsOf (a ++ b) = stratsOf a ++ stratsOf b := by
  simp [stratsOf]

theorem readDocument_ensureDir (env : Env) (fs : FS) (d p fmt : String) :
    readDocument env (fs.ensureDir d) p fmt = readDocument env fs p fmt := by
  unfold readDocument
  rw [look_ensureDir]

theorem readDocument_trace (env : Env) (fs : FS) (p fmt : String) :
    (readDocument env fs p fmt).2 = [Ev.readF p] := by
  unfold readDocument
  rcases fs.look p with _ | buf
  · rfl
  · dsimp only
    split
    · rcases env.pdfParse buf with e | d <;> rfl
    · split
      · rcases env.mammothConvertToHtml buf with e | h
        · rfl
        · rcases env.mammothExtractRawText buf with e | t <;> rfl
      · split
        · rfl
        · split <;> rfl

theorem jsRound_eq (q : ℚ) : jsRound q = ⌊q + 1/2⌋ := by
  rw [jsRound, Rat.floor_def, Rat.floor_def']

theorem mathCeilDiv_cast (n : Nat) : ((mathCeilDiv n 2000 : Nat) : ℤ) = ⌈(n : ℚ) / 2000⌉ := by
  rw [show ⌈(n : ℚ) / 2000⌉ = -⌊-((n : ℚ) / 2000)⌋ by rw [Int.floor_neg]; simp]
  have h : (-((n : ℚ) / 2000)) = ((-(n : ℤ) : ℤ) : ℚ) / ((2000 : ℕ) : ℚ) := by push_cast; ring
  rw [h, Rat.floor_intCast_div_natCast, mathCeilDiv]
  by_cases h3 : n % 2000 = 0 <;> simp [h3] <;> omega

/-! Claim C1. -/

/-- C1 counterexample: the pair (txt, txt) is not in the Conversion
Matrix, yet convertDocument converts it with success:true and writes the
output file — convertDocument never consults the matrix. -/
theorem c1_counterexample :
    matrixAllows "txt" "txt" = false ∧
    (convertDocument env0 fsTxt "in.txt" "out.txt" "txt" {}).1.success = true ∧
    (convertDocument env0 fsTxt "in.txt" "out.txt" "txt" {}).2.1.look "out.txt" = some "hello" := by
  refine ⟨by decide, by decide, by decide⟩

/-- C1 (amended): convertDocument performs no Conversion-Matrix check.
For a non-image source whose read stage succeeds, a target format outside
the write-stage set \x7btxt, md, html, pdf, docx\x7d is rejected with
success:false and the message "Conversion failed: Unsupported output
format: ...", and nothing is written at the output path — but the input
file has already been read and the output directory created before this
rejection. -/
theorem c1_no_matrix_gate (env : Env) (fs : FS) (inp out tgt : String)
    (opts : ConversionOptions) (c : DocContent) (tr : List Ev)
    (hex : fs.pathExists inp = true)
    (himg : docImageFormats.contains (detectFormat env inp) = false)
    (htgt : tgt ∉ ["txt", "md", "html", "pdf", "docx"])
    (hread : readDocument env fs inp (detectFormat env inp) = (Except.ok c, tr)) :
    (convertDocument env fs inp out tgt opts).1.success = false ∧
    (convertDocument env fs inp out tgt opts).1.message =
      "Conversion failed: Unsupported output format: " ++ tgt ∧
    (convertDocument env fs inp out tgt opts).2.1.look out = fs.look out ∧
    Ev.readF inp ∈ (convertDocument env fs inp out tgt opts).2.2 ∧
    (convertDocument env fs inp out tgt opts).2.1.dirs.contains (dirname out) = true := by
  simp only [List.mem_cons, not_or] at htgt
  obtain ⟨h1, h2, h3, h4, h5, -⟩ := htgt
  have hb1 : (tgt == "txt") = false := beq_eq_false_iff_ne.mpr h1
  have hb2 : (tgt == "md") = false := beq_eq_false_iff_ne.mpr h2
  have hb3 : (tgt == "html") = false := beq_eq_false_iff_ne.mpr h3
  have hb4 : (tgt == "pdf") = false := beq_eq_false_iff_ne.mpr h4
  have hb5 : (tgt == "docx") = false := beq_eq_false_iff_ne.mpr h5
  have htr : tr = [Ev.readF inp] := by
    have := congrArg Prod.snd hread
    simpa [readDocument_trace] using this.symm
  have hg : docGeneric env (fs.ensureDir (dirname out)) inp out tgt opts (detectFormat env inp) =
      (Except.error ("Unsupported output format: " ++ tgt), fs.ensureDir (dirname out), tr ++ []) := by
    unfold docGeneric
    rw [readDocument_ensureDir, hread]
    simp [writeDocument, hb1, hb2, hb3, hb4, hb5]
  have key : convertDocument env fs inp out tgt opts =
      ({ success := false, output_path := out,
         message := "Conversion failed: Unsupported output format: " ++ tgt },
       fs.ensureDir (dirname out), Ev.mkdir (dirname out) :: (tr ++ [])) := by
    have himg2 : detectFormat env inp ∉ docImageFormats := by simpa using himg
    unfold convertDocument convertDocumentBody
    simp [hex, hb4, himg2, hg, ← String.append_assoc]
  rw [key, htr]
  refine ⟨rfl, rfl, look_ensureDir fs (dirname out) out, by simp, contains_ensureDir_self fs _⟩

/-- C1 witness: a concrete request (md source, unknown target "rtf")
for the amended theorem. -/
theorem c1_witness :
    fsMd.pathExists "a.md" = true ∧
    docImageFormats.contains (detectFormat env0 "a.md") = false ∧
    ("rtf" ∉ ["txt", "md", "html", "pdf", "docx"]) ∧
    (convertDocument env0 fsMd "a.md" "out.rtf" "rtf" {}).1.success = false := by
  refine ⟨by decide, by decide, by decide, ?_⟩
  exact (c1_no_matrix_gate env0 fsMd "a.md" "out.rtf" "rtf" {}
    { text := "x", html := some "x" } [Ev.readF "a.md"]
    (by decide) (by decide) (by decide) rfl).1

/-! Claim C3. -/

/-- C3: convertDocument and convertImage never let an internal error
escape: whenever the body of the try block throws e, the caller receives
a normalized result with success:false whose message is the fixed prefix
followed by the underlying cause text, and the filesystem/trace are those
at the point of the throw. -/
theorem c3_error_normalization (env : Env) (fs : FS) (inp out tgt : String) :
    (∀ (opts : ConversionOptions) (e : String) (bfs : FS) (btr : List Ev),
      convertDocumentBody env fs inp out tgt opts = (Except.error e, bfs, btr) →
      convertDocument env fs inp out tgt opts =
        ({ success := false, output_path := out,
           message := "Conversion failed: " ++ e }, bfs, btr)) ∧
    (∀ (iopts : ImageConversionOptions) (e : String) (bfs : FS) (btr : List Ev),
      convertImageBody env fs inp out tgt iopts = (Except.error e, bfs, btr) →
      convertImage env fs inp out tgt iopts =
        ({ success := false, output_path := out,
           message := "Image conversion failed: " ++ e }, bfs, btr)) := by
  constructor
  · intro opts e bfs btr h
    simp [convertDocument, h]
  · intro iopts e bfs btr h
    simp [convertImage, h]

/-- C3 witness: a missing input file makes the body throw, and the
public result is the normalized failure carrying the cause text. -/
theorem c3_witness :
    convertDocumentBody env0 fsEmpty "missing.txt" "out.txt" "txt" {} =
      (Except.error "Input file does not exist: missing.txt", fsEmpty, []) ∧
    convertDocument env0 fsEmpty "missing.txt" "out.txt" "txt" {} =
      ({ success := false, output_path := "out.txt",
         message := "Conversion failed: Input file does not exist: missing.txt" },
       fsEmpty, []) := by
  have h : convertDocumentBody env0 fsEmpty "missing.txt" "out.txt" "txt" {} =
      (Except.error "Input file does not exist: missing.txt", fsEmpty, []) := by rfl
  exact ⟨h, (c3_error_normalization env0 fsEmpty "missing.txt" "out.txt" "txt").1 {} _ _ _ h⟩

/-! Claim C5. -/

/-- C5: every successful image conversion reports
compression_ratio = (originalSize - newSize) / originalSize * 100 rounded
to two decimal places with JavaScript Math.round semantics, where the
sizes are the byte lengths of the input file and of the written output
file; the value is passed through as computed, never clamped, and at
sizes 1000/800 the rounded value is exactly 20, at 1000/1200 exactly
-20. -/
theorem c5_compression_ratio :
    (∀ (env : Env) (fs : FS) (inp out tgt : String) (opts : ImageConversionOptions),
      (convertImage env fs inp out tgt opts).1.success = true →
      ∃ o n, (convertImage env fs inp out tgt opts).1.original_size = some o ∧
        (convertImage env fs inp out tgt opts).1.new_size = some n ∧
        (convertImage env fs inp out tgt opts).1.compression_ratio =
          some (round2 (((o : ℚ) - (n : ℚ)) / (o : ℚ) * 100))) ∧
    round2 ((1000 - 800) / 1000 * 100) = 20 ∧
    round2 ((1000 - 1200) / 1000 * 100) = -20 := by
  refine ⟨?_, ?_, ?_⟩
  · intro env fs inp out tgt opts h
    rcases hb : convertImageBody env fs inp out tgt opts with ⟨res, bfs, btr⟩
    cases res with
    | error e => simp [convertImage, hb] at h
    | ok r =>
      have hres : convertImage env fs inp out tgt opts = (r, bfs, btr) := by
        simp [convertImage, hb]
      unfold convertImageBody at hb
      by_cases hpe : fs.pathExists inp = true
      · simp only [hpe, Bool.not_true, Bool.false_eq_true, if_false] at hb
        rcases hlook : (fs.ensureDir (dirname out)).look inp with _ | inContent
        · simp [hlook] at hb
        · simp only [hlook] at hb
          rcases hpi : processImage env (fs.ensureDir (dirname out)) inp out tgt opts
            with ⟨pres, pfs, ptr⟩
          cases pres with
          | error e => simp [hpi] at hb
          | ok u =>
            simp only [hpi] at hb
            rcases hout : pfs.look out with _ | outContent
            · simp [hout] at hb
            · simp only [hout, Prod.mk.injEq, Except.ok.injEq] at hb
              obtain ⟨hr, -, -⟩ := hb
              refine ⟨inContent.length, outContent.length, ?_, ?_, ?_⟩ <;>
                rw [hres, ← hr]
      · simp [hpe] at hb
  · rw [round2, jsRound_eq]
    norm_num
  · rw [round2, jsRound_eq]
    norm_num

/-- C5 witness: concrete conversions with input size 1000 and output
sizes 800 and 1200 report exactly 20 and -20. -/
theorem c5_witness :
    (convertImage envSharp800 fs1000 "in.png" "out.jpeg" "jpeg" {}).1.success = true ∧
    (convertImage envSharp800 fs1000 "in.png" "out.jpeg" "jpeg" {}).1.compression_ratio =
      some 20 ∧
    (convertImage envSharp1200 fs1000 "in.png" "out.jpeg" "jpeg" {}).1.compression_ratio =
      some (-20) := by
  have hs : (convertImage envSharp800 fs1000 "in.png" "out.jpeg" "jpeg" {}).1.success = true := by
    decide
  have hs2 : (convertImage envSharp1200 fs1000 "in.png" "out.jpeg" "jpeg" {}).1.success = true := by
    decide
  obtain ⟨o, n, ho, hn, hr⟩ :=
    c5_compression_ratio.1 envSharp800 fs1000 "in.png" "out.jpeg" "jpeg" {} hs
  obtain ⟨o2, n2, ho2, hn2, hr2⟩ :=
    c5_compression_ratio.1 envSharp1200 fs1000 "in.png" "out.jpeg" "jpeg" {} hs2
  have hoe : (convertImage envSharp800 fs1000 "in.png" "out.jpeg" "jpeg" {}).1.original_size =
      some 1000 := by decide
  have hne : (convertImage envSharp800 fs1000 "in.png" "out.jpeg" "jpeg" {}).1.new_size =
      some 800 := by decide
  have hoe2 : (convertImage envSharp1200 fs1000 "in.png" "out.jpeg" "jpeg" {}).1.original_size =
      some 1000 := by decide
  have hne2 : (convertImage envSharp1200 fs1000 "in.png" "out.jpeg" "jpeg" {}).1.new_size =
      some 1200 := by decide
  have ho' : o = 1000 := by rw [ho] at hoe; exact Option.some.inj hoe
  have hn' : n = 800 := by rw [hn] at hne; exact Option.some.inj hne
  have ho2' : o2 = 1000 := by rw [ho2] at hoe2; exact Option.some.inj hoe2
  have hn2' : n2 = 1200 := by rw [hn2] at hne2; exact Option.some.inj hne2
  refine ⟨hs, ?_, ?_⟩
  · rw [hr, ho', hn', Option.some_inj, round2, jsRound_eq]
    norm_num
  · rw [hr2, ho2', hn2', Option.some_inj, round2, jsRound_eq]
    norm_num

/-! Claim C9. -/

/-- C9: for a DOCX file, getDocumentInfo reports pages as the ceiling of
the extracted raw-text character count divided by 2000, and a failure of
the raw-text extraction is swallowed: the call still succeeds, with the
pages field simply omitted. -/
theorem c9_docx_page_estimate (env : Env) (fs : FS) (p buf : String)
    (hlook : fs.look p = some buf)
    (hfmt : detectFormat env p = "docx") :
    (∀ v, env.mammothExtractRawText buf = Except.ok v →
      (getDocumentInfo env fs p).1 =
        Except.ok { format := "docx", size := buf.length,
                    pages := some (mathCeilDiv v.length 2000) }) ∧
    (∀ e, env.mammothExtractRawText buf = Except.error e →
      (getDocumentInfo env fs p).1 = Except.ok { format := "docx", size := buf.length }) ∧
    (∀ n : Nat, ((mathCeilDiv n 2000 : Nat) : ℤ) = ⌈(n : ℚ) / 2000⌉) := by
  refine ⟨?_, ?_, mathCeilDiv_cast⟩ <;>
    · intro x hx
      unfold getDocumentInfo
      rw [hlook]
      simp [hfmt, hx, show ("docx" : String) ∉ docImageFormats from by decide]

/-- C9 witness: a DOCX file whose extracted raw text has 10 characters is
reported as ceil(10 / 2000) = 1 page. -/
theorem c9_witness :
    fsDocx.look "in.docx" = some "DOCXBYTES" ∧
    detectFormat envRawTen "in.docx" = "docx" ∧
    (getDocumentInfo envRawTen fsDocx "in.docx").1 =
      Except.ok { format := "docx", size := 9, pages := some 1 } := by
  refine ⟨rfl, by decide, ?_⟩
  have h := (c9_docx_page_estimate envRawTen fsDocx "in.docx" "DOCXBYTES" rfl (by decide)).1
    "0123456789" rfl
  rw [h]
  rfl

/-! Claim C7. -/

/-- C7: converting a txt file to md and the result back to txt
reproduces the original content exactly, for any content (in particular
any plain-ASCII content): the txt read is verbatim, the md write emits
the text unchanged because no HTML rendering exists for a txt source, and
the txt write is verbatim. -/
theorem c7_roundtrip (env : Env) (fs : FS) (s : String)
    (hascii : ∀ ch ∈ s.data, ch.toNat < 128)
    (h0 : fs.look "in.txt" = some s) :
    ((convertDocument env fs "in.txt" "mid.md" "md" {}).1.success = true ∧
     (convertDocument env fs "in.txt" "mid.md" "md" {}).2.1.look "mid.md" = some s) ∧
    ((convertDocument env ((convertDocument env fs "in.txt" "mid.md" "md" {}).2.1)
        "mid.md" "out.txt" "txt" {}).1.success = true ∧
     (convertDocument env ((convertDocument env fs "in.txt" "mid.md" "md" {}).2.1)
        "mid.md" "out.txt" "txt" {}).2.1.look "out.txt" = some s) := by
  have hpe : fs.pathExists "in.txt" = true := pathExists_of_look fs "in.txt" s h0
  have hdf1 : detectFormat env "in.txt" = "txt" := rfl
  have hdn1 : dirname "mid.md" = "." := rfl
  have hnotimg1 : "txt" ∉ docImageFormats := by decide
  have hr1 : readDocument env fs "in.txt" "txt" =
      (Except.ok { text := s, html := none }, [Ev.readF "in.txt"]) := by
    unfold readDocument
    rw [h0]
    rfl
  have hg1 : docGeneric env (fs.ensureDir ".") "in.txt" "mid.md" "md" {} "txt" =
      (Except.ok { success := true, output_path := "mid.md",
                   message := "Successfully converted txt to md" },
       (fs.ensureDir ".").write "mid.md" s, [Ev.readF "in.txt", Ev.writeF "mid.md"]) := by
    unfold docGeneric
    rw [readDocument_ensureDir, hr1]
    simp [writeDocument, truthyS]
  have e1 : convertDocument env fs "in.txt" "mid.md" "md" {} =
      ({ success := true, output_path := "mid.md",
         message := "Successfully converted txt to md" },
       (fs.ensureDir ".").write "mid.md" s,
       [Ev.mkdir ".", Ev.readF "in.txt", Ev.writeF "mid.md"]) := by
    unfold convertDocument convertDocumentBody
    simp [hpe, hdf1, hdn1, hnotimg1, hg1]
  have h0' : ((fs.ensureDir ".").write "mid.md" s).look "mid.md" = some s :=
    look_write_self (fs.ensureDir ".") "mid.md" s
  have hpe' : ((fs.ensureDir ".").write "mid.md" s).pathExists "mid.md" = true :=
    pathExists_of_look _ "mid.md" s h0'
  have hdf2 : detectFormat env "mid.md" = "md" := rfl
  have hdn2 : dirname "out.txt" = "." := rfl
  have hnotimg2 : "md" ∉ docImageFormats := by decide
  have hr2 : readDocument env ((fs.ensureDir ".").write "mid.md" s) "mid.md" "md" =
      (Except.ok { text := s, html := some (env.marked s) }, [Ev.readF "mid.md"]) := by
    unfold readDocument
    rw [h0']
    rfl
  have hg2 : docGeneric env (((fs.ensureDir ".").write "mid.md" s).ensureDir ".")
      "mid.md" "out.txt" "txt" {} "md" =
      (Except.ok { success := true, output_path := "out.txt",
                   message := "Successfully converted md to txt" },
       (((fs.ensureDir ".").write "mid.md" s).ensureDir ".").write "out.txt" s,
       [Ev.readF "mid.md", Ev.writeF "out.txt"]) := by
    unfold docGeneric
    rw [readDocument_ensureDir, hr2]
    simp [writeDocument]
  have e2 : convertDocument env ((fs.ensureDir ".").write "mid.md" s) "mid.md" "out.txt" "txt" {} =
      ({ success := true, output_path := "out.txt",
         message := "Successfully converted md to txt" },
       (((fs.ensureDir ".").write "mid.md" s).ensureDir ".").write "out.txt" s,
       [Ev.mkdir ".", Ev.readF "mid.md", Ev.writeF "out.txt"]) := by
    unfold convertDocument convertDocumentBody
    simp [hpe', hdf2, hdn2, hnotimg2, hg2]
  rw [e1]
  refine ⟨⟨rfl, h0'⟩, ?_⟩
  rw [e2]
  exact ⟨rfl, look_write_self _ "out.txt" s⟩

/-- C7 witness: the round trip on the concrete content "hello". -/
theorem c7_witness :
    (convertDocument env0 fsTxt "in.txt" "mid.md" "md" {}).2.1.look "mid.md" = some "hello" ∧
    (convertDocument env0 ((convertDocument env0 fsTxt "in.txt" "mid.md" "md" {}).2.1)
      "mid.md" "out.txt" "txt" {}).2.1.look "out.txt" = some "hello" := by
  have h := c7_roundtrip env0 fsTxt "hello" (by decide) rfl
  exact ⟨h.1.2, h.2.2⟩

/-! Claim C4. -/

theorem processWithJimp_no_sharp (env : Env) (fs : FS) (inp out tgt : String)
    (opts : ImageConversionOptions) :
    Ev.sharpFile ∉ (processWithJimp env fs inp out tgt opts).2.2 := by
  unfold processWithJimp
  cases hlook : fs.look inp with
  | none => simp
  | some c =>
    cases hrun : env.jimpRun c (jimpOps opts tgt) with
    | error e => simp [hrun]
    | ok b => simp [hrun]

/-- C4 counterexample: an SVG source for which the primary codec throws
is NOT retried with the secondary codec — the error escapes processImage
and convertImage reports failure, although the Jimp oracle would have
succeeded; no Jimp event is in the trace and no output is written. -/
theorem c4_counterexample :
    (convertImage envSharpFail fsSvg "in.svg" "out.png" "png" {}).1.success = false ∧
    (convertImage envSharpFail fsSvg "in.svg" "out.png" "png" {}).1.message =
      "Image conversion failed: sharp decode failed" ∧
    Ev.jimpFile ∉ (convertImage envSharpFail fsSvg "in.svg" "out.png" "png" {}).2.2 ∧
    (convertImage envSharpFail fsSvg "in.svg" "out.png" "png" {}).2.1.look "out.png" = none ∧
    envSharpFail.jimpRun "<svg/>" (jimpOps {} "png") = Except.ok "JIMPBYTES" := by
  refine ⟨by decide, by decide, by decide, by decide, rfl⟩

/-- C4 (amended): for non-SVG sources, a sharp failure during the
transform/encode stage causes the whole pipeline — decode included — to
be re-run end-to-end with Jimp from the original input and the original
filesystem (all partial sharp state discarded), and GIF/BMP targets route
unconditionally to Jimp without attempting the sharp encode; SVG sources
are routed to a sharp-only path before the try/catch, so a sharp error on
an SVG propagates with no Jimp retry. -/
theorem c4_sharp_fallback (env : Env) (fs : FS) (inp out tgt : String)
    (opts : ImageConversionOptions) :
    (detectImageFormat env inp ≠ "svg" →
      sharpEncodable.contains (lowerStr tgt) = true →
      ∀ c e, fs.look inp = some c →
        env.sharpRun c (sharpOps opts (lowerStr tgt)) = Except.error e →
        processImage env fs inp out tgt opts =
          ((processWithJimp env fs inp out tgt opts).1,
           (processWithJimp env fs inp out tgt opts).2.1,
           [Ev.readF inp, Ev.sharpFile] ++ (processWithJimp env fs inp out tgt opts).2.2)) ∧
    (detectImageFormat env inp ≠ "svg" →
      (lowerStr tgt = "gif" ∨ lowerStr tgt = "bmp") →
      processImage env fs inp out tgt opts = processWithJimp env fs inp out tgt opts ∧
      Ev.sharpFile ∉ (processImage env fs inp out tgt opts).2.2) ∧
    (detectImageFormat env inp = "svg" →
      ∀ c e, fs.look inp = some c →
        env.sharpRun c (svgOps opts tgt) = Except.error e →
        processImage env fs inp out tgt opts =
          (Except.error e, fs, [Ev.readF inp, Ev.sharpFile]) ∧
        Ev.jimpFile ∉ (processImage env fs inp out tgt opts).2.2) := by
  refine ⟨?_, ?_, ?_⟩
  · intro hsvg ht c e hlook hsharp
    have hb : (detectImageFormat env inp == "svg") = false := beq_eq_false_iff_ne.mpr hsvg
    have ht2 : lowerStr tgt ∈ sharpEncodable := by simpa using ht
    unfold processImage
    simp [hb, ht2, hlook, hsharp]
  · intro hsvg hgb
    have hb : (detectImageFormat env inp == "svg") = false := beq_eq_false_iff_ne.mpr hsvg
    have heq : processImage env fs inp out tgt opts = processWithJimp env fs inp out tgt opts := by
      unfold processImage
      rcases hgb with h | h <;>
        · rw [h] at *
          simp [hb, h, show ("gif" : String) ∉ sharpEncodable from by decide,
            show ("bmp" : String) ∉ sharpEncodable from by decide]
    exact ⟨heq, heq ▸ processWithJimp_no_sharp env fs inp out tgt opts⟩
  · intro hsvg c e hlook hsharp
    have hb : (detectImageFormat env inp == "svg") = true := by
      rw [hsvg]; rfl
    have heq : processImage env fs inp out tgt opts =
        (Except.error e, fs, [Ev.readF inp, Ev.sharpFile]) := by
      unfold processImage processSvgImage
      simp [hb, hlook, hsharp]
    exact ⟨heq, by rw [heq]; simp⟩

/-- C4 witness: a non-SVG source with a failing sharp oracle is rerun
through the full Jimp pipeline on the original filesystem. -/
theorem c4_witness :
    detectImageFormat envSharpFail "in.png" ≠ "svg" ∧
    sharpEncodable.contains (lowerStr "jpeg") = true ∧
    processImage envSharpFail fsPng "in.png" "out.jpeg" "jpeg" {} =
      ((processWithJimp envSharpFail fsPng "in.png" "out.jpeg" "jpeg" {}).1,
       (processWithJimp envSharpFail fsPng "in.png" "out.jpeg" "jpeg" {}).2.1,
       [Ev.readF "in.png", Ev.sharpFile] ++
         (processWithJimp envSharpFail fsPng "in.png" "out.jpeg" "jpeg" {}).2.2) := by
  refine ⟨by decide, by decide, ?_⟩
  exact (c4_sharp_fallback envSharpFail fsPng "in.png" "out.jpeg" "jpeg" {}).1
    (by decide) (by decide) "PNGBYTES" "sharp decode failed" rfl rfl

/-! Claim C8. -/

theorem batchStep_counts (env : Env) (inputDir outputDir targetFormat : String)
    (opts : ImageConversionOptions) (l : List String) :
    ∀ acc : (Nat × Nat × List ImageConversionResult) × FS × List Ev,
      ((l.foldl (batchStep env inputDir outputDir targetFormat opts) acc).1.2.2.length =
        acc.1.2.2.length + l.length) ∧
      ((l.foldl (batchStep env inputDir outputDir targetFormat opts) acc).1.1 +
        (l.foldl (batchStep env inputDir outputDir targetFormat opts) acc).1.2.1 =
        acc.1.1 + acc.1.2.1 + l.length) := by
  induction l with
  | nil => intro acc; simp
  | cons f rest ih =>
    intro acc
    rw [List.foldl_cons]
    obtain ⟨h1, h2⟩ := ih (batchStep env inputDir outputDir targetFormat opts acc f)
    have hlen : (batchStep env inputDir outputDir targetFormat opts acc f).1.2.2.length =
        acc.1.2.2.length + 1 := by
      simp [batchStep]
    have hsum : (batchStep env inputDir outputDir targetFormat opts acc f).1.1 +
        (batchStep env inputDir outputDir targetFormat opts acc f).1.2.1 =
        acc.1.1 + acc.1.2.1 + 1 := by
      simp only [batchStep]
      cases (convertImage env acc.2.1 (inputDir ++ "/" ++ f)
          (outputDir ++ "/" ++ (basenameNoExt f ++ "." ++ targetFormat))
          targetFormat opts).1.success <;> simp <;> omega
    constructor
    · rw [h1, hlen]
      simp
      omega
    · rw [h2, hsum]
      simp
      omega

/-- C8: batchConvertImages returns one per-file result for each file with
a supported image extension, never aborts early, and its success and
failed counters always add up to the number of supported files in the
input directory, whatever the individual outcomes. -/
theorem c8_batch_driver (env : Env) (fs : FS) (inputDir outputDir targetFormat : String)
    (opts : ImageConversionOptions) :
    ((batchConvertImages env fs inputDir outputDir targetFormat opts).1.2.2.length =
      ((readdir fs inputDir).filter
        (fun f => batchImageExts.contains (lowerStr (extname f)))).length) ∧
    ((batchConvertImages env fs inputDir outputDir targetFormat opts).1.1 +
      (batchConvertImages env fs inputDir outputDir targetFormat opts).1.2.1 =
      ((readdir fs inputDir).filter
        (fun f => batchImageExts.contains (lowerStr (extname f)))).length) := by
  unfold batchConvertImages
  obtain ⟨h1, h2⟩ := batchStep_counts env inputDir outputDir targetFormat opts
    ((readdir fs inputDir).filter fun f => batchImageExts.contains (lowerStr (extname f)))
    ((0, 0, []), fs.ensureDir outputDir, [Ev.mkdir outputDir])
  constructor
  · simpa using h1
  · simpa using h2

/-! Claim C6. -/

theorem anchorDims_effect_encode (eo : Option EffectOptions) (t : String)
    (opts : ImageConversionOptions) (d : Nat × Nat) (g ov : String) (rest : List SharpOp) :
    anchorDims d (effectOps eo ++ (encodeOp t opts :: SharpOp.composite g ov :: rest)) =
      some d := by
  have henc : ∀ d' : Nat × Nat,
      anchorDims d' (encodeOp t opts :: SharpOp.composite g ov :: rest) = some d' := by
    intro d'
    unfold encodeOp
    split_ifs <;> simp [anchorDims, opDims]
  cases eo with
  | none => simpa [effectOps] using henc d
  | some e =>
    simp only [effectOps]
    split_ifs <;> simp [anchorDims, opDims, henc]

/-- C6: for any request with a text watermark and a resize, the sharp
pipeline lists the resize before the watermark composite (the fixed order
resize, effects, output format, composite), and the dimensions in effect
at the composite — the watermark anchor — are exactly the post-resize
dimensions, for every source dimension. -/
theorem c6_resize_before_watermark (opts : ImageConversionOptions) (t : String)
    (w h : Nat) (wm : WatermarkSpec) (d : Nat × Nat)
    (ht : sharpEncodable.contains t = true)
    (hw : opts.width = some w) (hh : opts.height = some h)
    (hw0 : w ≠ 0) (hh0 : h ≠ 0)
    (hwm : opts.watermark = some wm) (htext : truthyS wm.text = true) :
    (sharpOps opts t =
      SharpOp.resize (some w) (some h) (orS opts.fit "inside")
          (orS opts.background "rgba(255,255,255,1)") ::
        (effectOps opts.effects ++
          (encodeOp t opts :: [SharpOp.composite
            (getWatermarkGravity (orS wm.position "bottom-right"))
            (watermarkSvg (wm.text.getD "") (orQ wm.fontSize 24)
              (orS wm.color "rgba(255, 255, 255, 0.8)") (orQ wm.opacity 0.8))]))) ∧
    anchorDims d (sharpOps opts t) =
      some (resizeDims (some w) (some h) (orS opts.fit "inside") d) := by
  have hr : resizeOps opts = [SharpOp.resize (some w) (some h) (orS opts.fit "inside")
      (orS opts.background "rgba(255,255,255,1)")] := by
    unfold resizeOps
    rw [hw, hh]
    simp [truthyN, hw0]
  have hwops : addWatermarkOps wm = [SharpOp.composite
      (getWatermarkGravity (orS wm.position "bottom-right"))
      (watermarkSvg (wm.text.getD "") (orQ wm.fontSize 24)
        (orS wm.color "rgba(255, 255, 255, 0.8)") (orQ wm.opacity 0.8))] := by
    unfold addWatermarkOps
    rw [if_pos htext]
  have hs : sharpOps opts t =
      SharpOp.resize (some w) (some h) (orS opts.fit "inside")
          (orS opts.background "rgba(255,255,255,1)") ::
        (effectOps opts.effects ++
          (encodeOp t opts :: [SharpOp.composite
            (getWatermarkGravity (orS wm.position "bottom-right"))
            (watermarkSvg (wm.text.getD "") (orQ wm.fontSize 24)
              (orS wm.color "rgba(255, 255, 255, 0.8)") (orQ wm.opacity 0.8))])) := by
    rw [sharpOps, hr, hwm]
    simp [hwops]
  refine ⟨hs, ?_⟩
  rw [hs]
  exact anchorDims_effect_encode opts.effects t opts
    (resizeDims (some w) (some h) (orS opts.fit "inside") d)
    (getWatermarkGravity (orS wm.position "bottom-right"))
    (watermarkSvg (wm.text.getD "") (orQ wm.fontSize 24)
      (orS wm.color "rgba(255, 255, 255, 0.8)") (orQ wm.opacity 0.8)) []

/-- C6 witness: a 400x300 source resized to 100x100 (cover) with a
bottom-right text watermark anchors the watermark against 100x100, not
against the source dimensions. -/
theorem c6_witness :
    sharpEncodable.contains "jpeg" = true ∧
    anchorDims (400, 300) (sharpOps optsWm "jpeg") = some (100, 100) ∧
    ((400, 300) : Nat × Nat) ≠ (100, 100) := by
  refine ⟨by decide, ?_, by decide⟩
  have h := (c6_resize_before_watermark optsWm "jpeg" 100 100 { text := some "W" } (400, 300)
    (by decide) rfl rfl (by decide) (by decide) rfl (by decide)).2
  rw [h]
  decide

/-! Claim C2. -/

theorem stratsOf_cons_readF (p : String) (l : List Ev) :
    stratsOf (Ev.readF p :: l) = stratsOf l := by
  simp [stratsOf]

theorem stratsOf_cons_mkdir (p : String) (l : List Ev) :
    stratsOf (Ev.mkdir p :: l) = stratsOf l := by
  simp [stratsOf]

theorem runHelper_trace (pr : ProcResult) (fs : FS) (out cmd : String) :
    (runHelper pr fs out cmd).2.2 = [Ev.spawn cmd] := by
  unfold runHelper
  cases pr.exit <;> rfl

theorem runHelper_exit (pr : ProcResult) (fs : FS) (out cmd : String)
    (h : (runHelper pr fs out cmd).1 = true) : pr.exit = some 0 := by
  unfold runHelper at h
  cases hc : pr.exit with
  | none => rw [hc] at h; simp at h
  | some code =>
    rw [hc] at h
    simp only [beq_iff_eq] at h
    rw [h]

theorem stratsOf_wordCom_cases (env : Env) (fs : FS) (inp out : String) :
    stratsOf (convertDocxToPdfViaWordCom env fs inp out).2.2 = [] ∨
    (stratsOf (convertDocxToPdfViaWordCom env fs inp out).2.2 = [Strat.wordCom] ∧
      env.platform = "win32") := by
  unfold convertDocxToPdfViaWordCom
  by_cases hp : env.platform = "win32"
  · right
    refine ⟨?_, hp⟩
    cases hc : env.cscript.exit <;> simp [hp, hc, stratsOf]
  · left
    simp [hp, stratsOf]

theorem wordCom_true (env : Env) (fs : FS) (inp out : String) (b : Bool) (fs2 : FS)
    (tr : List Ev) (heq : convertDocxToPdfViaWordCom env fs inp out = (b, fs2, tr))
    (hb : b = true) :
    env.platform = "win32" ∧ env.cscript.exit = some 0 ∧
    fs2.pathExists out = true ∧ fs2.size out ≠ 0 := by
  subst hb
  unfold convertDocxToPdfViaWordCom at heq
  by_cases hp : env.platform = "win32"
  · cases hc : env.cscript.exit with
    | none => simp [hp, hc] at heq
    | some code =>
      simp only [hp, hc, bne_self_eq_false, Bool.false_eq_true, if_false,
        Prod.mk.injEq] at heq
      obtain ⟨hok, hfs, -⟩ := heq
      simp only [Bool.and_eq_true, beq_iff_eq, bne_iff_ne, ne_eq] at hok
      obtain ⟨⟨h0, hexi⟩, hsz⟩ := hok
      exact ⟨hp, by rw [h0], by rw [← hfs]; exact hexi, by rw [← hfs]; exact hsz⟩
  · simp [hp] at heq

theorem stratsOf_python_cases (env : Env) (fs : FS) (inp out : String) :
    stratsOf (convertDocxToPdfViaPython env fs inp out).2.2 = [] ∨
    stratsOf (convertDocxToPdfViaPython env fs inp out).2.2 = [Strat.pythonScript] := by
  unfold convertDocxToPdfViaPython
  by_cases hs : fs.pathExists (env.cwd ++ "/DocumentAssistant/docx_to_pdf_converter.py") = true
  · right
    simp only [hs, Bool.not_true, Bool.false_eq_true, if_false]
    by_cases h1 : (runHelper env.python fs out "python").1 = true <;>
      split_ifs <;>
        simp [h1, stratsOf_append, runHelper_trace, stratsOf]
  · left
    have hs2 : fs.pathExists (env.cwd ++ "/DocumentAssistant/docx_to_pdf_converter.py")
        = false := by simpa using hs
    simp [hs2, stratsOf]

theorem python_true (env : Env) (fs : FS) (inp out : String) (b : Bool) (fs2 : FS)
    (tr : List Ev) (heq : convertDocxToPdfViaPython env fs inp out = (b, fs2, tr))
    (hb : b = true) :
    (env.python.exit = some 0 ∨ env.py.exit = some 0) ∧
    fs2.pathExists out = true ∧ fs2.size out ≠ 0 := by
  subst hb
  unfold convertDocxToPdfViaPython at heq
  by_cases hs : fs.pathExists (env.cwd ++ "/DocumentAssistant/docx_to_pdf_converter.py") = true
  · simp only [hs, Bool.not_true, Bool.false_eq_true, if_false] at heq
    by_cases h1 : (runHelper env.python fs out "python").1 = true
    · simp only [h1, if_true] at heq
      split_ifs at heq with hcond
      · simp only [Prod.mk.injEq] at heq
        obtain ⟨-, hfs, -⟩ := heq
        simp only [Bool.and_eq_true, bne_iff_ne, ne_eq] at hcond
        obtain ⟨⟨-, hexi⟩, hsz⟩ := hcond
        exact ⟨Or.inl (runHelper_exit _ _ _ _ h1), by rw [← hfs]; exact hexi,
          by rw [← hfs]; exact hsz⟩
      · simp at heq
    · simp only [h1, Bool.false_eq_true, if_false] at heq
      split_ifs at heq with hcond
      · simp only [Prod.mk.injEq] at heq
        obtain ⟨-, hfs, -⟩ := heq
        simp only [Bool.and_eq_true, bne_iff_ne, ne_eq] at hcond
        obtain ⟨⟨h2, hexi⟩, hsz⟩ := hcond
        exact ⟨Or.inr (runHelper_exit _ _ _ _ h2), by rw [← hfs]; exact hexi,
          by rw [← hfs]; exact hsz⟩
      · simp at heq
  · have hs2 : fs.pathExists (env.cwd ++ "/DocumentAssistant/docx_to_pdf_converter.py")
        = false := by simpa using hs
    simp [hs2] at heq

theorem stratsOf_render_aux (env : Env) (fs : FS) (out html : String)
    (po : Option PdfOptions) :
    stratsOf ((match env.renderPdf html po with
      | Except.error e => (Except.error e, fs, [Ev.spawn "render"])
      | Except.ok bytes =>
        (Except.ok (), fs.write out bytes, [Ev.spawn "render", Ev.writeF out])) :
        Except String Unit × FS × List Ev).2.2 = [Strat.htmlRender] := by
  cases env.renderPdf html po <;> simp [stratsOf]

theorem stratsOf_convertToPdf (env : Env) (fs : FS) (c : DocContent) (out : String)
    (opts : ConversionOptions) :
    stratsOf (convertToPdf env fs c out opts).2.2 = [Strat.htmlRender] := by
  unfold convertToPdf
  exact stratsOf_render_aux env fs out _ opts.pdf_options

theorem writeDocument_pdf_eq (env : Env) (fs : FS) (c : DocContent) (out : String)
    (opts : ConversionOptions) :
    writeDocument env fs c out "pdf" opts = convertToPdf env fs c out opts := by
  unfold writeDocument
  rfl

theorem stratsOf_generic_pdf_cases (env : Env) (fs : FS) (inp out : String)
    (opts : ConversionOptions) (fmt : String) :
    stratsOf (docGeneric env fs inp out "pdf" opts fmt).2.2 = [] ∨
    stratsOf (docGeneric env fs inp out "pdf" opts fmt).2.2 = [Strat.htmlRender] := by
  unfold docGeneric
  have htr := readDocument_trace env fs inp fmt
  rcases hr : readDocument env fs inp fmt with ⟨r, tr⟩
  rw [hr] at htr
  cases r with
  | error e =>
    left
    have htr2 : tr = [Ev.readF inp] := htr
    subst htr2
    simp [stratsOf]
  | ok c =>
    right
    have htr2 : tr = [Ev.readF inp] := htr
    subst htr2
    dsimp only
    rw [writeDocument_pdf_eq]
    rcases hw : convertToPdf env fs c out opts with ⟨wr, wfs, wtr⟩
    have hws : stratsOf wtr = [Strat.htmlRender] := by
      have h0 := stratsOf_convertToPdf env fs c out opts
      rw [hw] at h0
      exact h0
    cases wr <;> dsimp only <;>
      rw [show ([Ev.readF inp] ++ wtr) = Ev.readF inp :: wtr from rfl] <;>
      rw [stratsOf_cons_readF, hws]

theorem sublist_of_components (a b c : List Strat)
    (ha : a = [] ∨ a = [Strat.wordCom]) (hb : b = [] ∨ b = [Strat.pythonScript])
    (hc : c = [] ∨ c = [Strat.htmlRender]) :
    List.Sublist (a ++ b ++ c) [Strat.wordCom, Strat.pythonScript, Strat.htmlRender] := by
  rcases ha with rfl | rfl <;> rcases hb with rfl | rfl <;> rcases hc with rfl | rfl <;> decide

/-- The control flow of convertDocument on a DOCX to PDF request: Word
COM first, then the python helper, then the generic read/render path. -/
theorem convertDocument_docx_pdf (env : Env) (fs : FS) (inp out : String)
    (opts : ConversionOptions)
    (hfmt : detectFormat env inp = "docx") (hex : fs.pathExists inp = true) :
    convertDocument env fs inp out "pdf" opts =
      (let W := convertDocxToPdfViaWordCom env (fs.ensureDir (dirname out)) inp out
       if W.1 then
         ({ success := true, output_path := out,
            message := "Successfully converted docx to pdf via Microsoft Word (COM)" },
          W.2.1, Ev.mkdir (dirname out) :: W.2.2)
       else
         let P := convertDocxToPdfViaPython env W.2.1 inp out
         if P.1 then
           ({ success := true, output_path := out,
              message := "Successfully converted docx to pdf via DocumentAssistant script" },
            P.2.1, Ev.mkdir (dirname out) :: (W.2.2 ++ P.2.2))
         else
           let G := docGeneric env P.2.1 inp out "pdf" opts "docx"
           (wrapDoc out G.1, G.2.1,
            Ev.mkdir (dirname out) :: (W.2.2 ++ P.2.2 ++ G.2.2))) := by
  unfold convertDocument convertDocumentBody
  have hc : ((detectFormat env inp == "docx") && (("pdf" : String) == "pdf")) = true := by
    rw [hfmt]; rfl
  simp only [hex, Bool.not_true, Bool.false_eq_true, if_false, hc, if_true]
  rcases hW : convertDocxToPdfViaWordCom env (fs.ensureDir (dirname out)) inp out
    with ⟨wok, wfs, wtr⟩
  cases wok with
  | true => simp [hW]
  | false =>
    rcases hP : convertDocxToPdfViaPython env wfs inp out with ⟨pok, pfs, ptr⟩
    cases pok with
    | true => simp [hW, hP]
    | false =>
      rcases hG : docGeneric env pfs inp out "pdf" opts (detectFormat env inp)
        with ⟨gr, gfs, gtr⟩
      have hG2 : docGeneric env pfs inp out "pdf" opts "docx" = (gr, gfs, gtr) := by
        rw [← hfmt]; exact hG
      cases gr <;> simp [hW, hP, hG, hG2, wrapDoc]

/-- C2: on a DOCX to PDF request the strategies run in the fixed order
Word COM, python helper, generic HTML render, each at most once; Word COM
is attempted only on win32; each external strategy succeeds only when its
process exits cleanly and the output file exists with nonzero size; a
successful strategy short-circuits the rest, and if both external
strategies fail the request falls through to the generic read/render path
instead of failing terminally. -/
theorem c2_docx_pdf_fallback_chain (env : Env) (fs : FS) (inp out : String)
    (opts : ConversionOptions)
    (hfmt : detectFormat env inp = "docx") (hex : fs.pathExists inp = true) :
    List.Sublist (stratsOf (convertDocument env fs inp out "pdf" opts).2.2)
      [Strat.wordCom, Strat.pythonScript, Strat.htmlRender] ∧
    (Strat.wordCom ∈ stratsOf (convertDocument env fs inp out "pdf" opts).2.2 →
      env.platform = "win32") ∧
    (∀ b fs2 tr,
      convertDocxToPdfViaWordCom env (fs.ensureDir (dirname out)) inp out = (b, fs2, tr) →
      b = true →
      env.cscript.exit = some 0 ∧ fs2.pathExists out = true ∧ fs2.size out ≠ 0 ∧
      convertDocument env fs inp out "pdf" opts =
        ({ success := true, output_path := out,
           message := "Successfully converted docx to pdf via Microsoft Word (COM)" },
         fs2, Ev.mkdir (dirname out) :: tr)) ∧
    (∀ b fs2 tr,
      convertDocxToPdfViaWordCom env (fs.ensureDir (dirname out)) inp out = (b, fs2, tr) →
      b = false →
      ∀ b2 fs3 tr2, convertDocxToPdfViaPython env fs2 inp out = (b2, fs3, tr2) →
      ((b2 = true →
        (env.python.exit = some 0 ∨ env.py.exit = some 0) ∧
        fs3.pathExists out = true ∧ fs3.size out ≠ 0 ∧
        convertDocument env fs inp out "pdf" opts =
          ({ success := true, output_path := out,
             message := "Successfully converted docx to pdf via DocumentAssistant script" },
           fs3, Ev.mkdir (dirname out) :: (tr ++ tr2)) ∧
        Strat.htmlRender ∉ stratsOf (convertDocument env fs inp out "pdf" opts).2.2) ∧
      (b2 = false →
        convertDocument env fs inp out "pdf" opts =
          (wrapDoc out (docGeneric env fs3 inp out "pdf" opts "docx").1,
           (docGeneric env fs3 inp out "pdf" opts "docx").2.1,
           Ev.mkdir (dirname out) ::
             (tr ++ tr2 ++ (docGeneric env fs3 inp out "pdf" opts "docx").2.2))))) := by
  have hmaster := convertDocument_docx_pdf env fs inp out opts hfmt hex
  rcases hW : convertDocxToPdfViaWordCom env (fs.ensureDir (dirname out)) inp out
    with ⟨wok, wfs, wtr⟩
  have hswc2 : stratsOf wtr = [] ∨
      (stratsOf wtr = [Strat.wordCom] ∧ env.platform = "win32") := by
    have h0 := stratsOf_wordCom_cases env (fs.ensureDir (dirname out)) inp out
    rw [hW] at h0
    exact h0
  cases wok with
  | true =>
    simp only [hW, if_true] at hmaster
    refine ⟨?_, ?_, ?_, ?_⟩
    · rw [hmaster, stratsOf_cons_mkdir]
      rcases hswc2 with h | ⟨h, -⟩ <;> rw [h] <;> decide
    · intro hmem
      rw [hmaster, stratsOf_cons_mkdir] at hmem
      rcases hswc2 with h | ⟨-, hplat⟩
      · rw [h] at hmem
        simp at hmem
      · exact hplat
    · intro b fs2 tr heq hb
      have h2 := heq
      simp only [Prod.mk.injEq] at h2
      obtain ⟨-, hfs2, htr2⟩ := h2
      subst hfs2
      subst htr2
      obtain ⟨-, hexit, hexi, hsz⟩ :=
        wordCom_true env (fs.ensureDir (dirname out)) inp out true wfs wtr hW rfl
      exact ⟨hexit, hexi, hsz, hmaster⟩
    · intro b fs2 tr heq hb
      have h2 := heq
      simp only [Prod.mk.injEq] at h2
      obtain ⟨hb2, -, -⟩ := h2
      rw [← hb2] at hb
      cases hb
  | false =>
    rcases hP : convertDocxToPdfViaPython env wfs inp out with ⟨pok, pfs, ptr⟩
    have hspc2 : stratsOf ptr = [] ∨ stratsOf ptr = [Strat.pythonScript] := by
      have h0 := stratsOf_python_cases env wfs inp out
      rw [hP] at h0
      exact h0
    cases pok with
    | true =>
      simp only [hW, hP, Bool.false_eq_true, if_false, if_true] at hmaster
      refine ⟨?_, ?_, ?_, ?_⟩
      · rw [hmaster, stratsOf_cons_mkdir, stratsOf_append]
        rcases hswc2 with h | ⟨h, -⟩ <;> rcases hspc2 with h2 | h2 <;> rw [h, h2] <;> decide
      · intro hmem
        rw [hmaster, stratsOf_cons_mkdir, stratsOf_append] at hmem
        rcases hswc2 with h | ⟨-, hplat⟩
        · rcases hspc2 with h2 | h2 <;> rw [h, h2] at hmem <;> simp at hmem
        · exact hplat
      · intro b fs2 tr heq hb
        have h2 := heq
        simp only [Prod.mk.injEq] at h2
        obtain ⟨hb2, -, -⟩ := h2
        rw [← hb2] at hb
        cases hb
      · intro b fs2 tr heq hb b2 fs3 tr2 heq2
        have h2 := heq
        simp only [Prod.mk.injEq] at h2
        obtain ⟨-, hfs2, htr2⟩ := h2
        subst hfs2
        subst htr2
        have h3 := hP.symm.trans heq2
        simp only [Prod.mk.injEq] at h3
        obtain ⟨hb3, hfs3, htr3⟩ := h3
        subst hfs3
        subst htr3
        constructor
        · intro hb2t
          obtain ⟨hor, hexi, hsz⟩ :=
            python_true env wfs inp out true pfs ptr hP rfl
          refine ⟨hor, hexi, hsz, hmaster, ?_⟩
          rw [hmaster, stratsOf_cons_mkdir, stratsOf_append]
          rcases hswc2 with h | ⟨h, -⟩ <;> rcases hspc2 with hq | hq <;>
            rw [h, hq] <;> decide
        · intro hb2f
          rw [← hb3] at hb2f
          cases hb2f
    | false =>
      rcases hG : docGeneric env pfs inp out "pdf" opts "docx" with ⟨gr, gfs, gtr⟩
      have hsgc : stratsOf gtr = [] ∨ stratsOf gtr = [Strat.htmlRender] := by
        have h0 := stratsOf_generic_pdf_cases env pfs inp out opts "docx"
        rw [hG] at h0
        exact h0
      simp only [hW, hP, hG, Bool.false_eq_true, if_false] at hmaster
      refine ⟨?_, ?_, ?_, ?_⟩
      · rw [hmaster, stratsOf_cons_mkdir, stratsOf_append, stratsOf_append]
        exact sublist_of_components _ _ _
          (hswc2.imp id And.left) hspc2 hsgc
      · intro hmem
        rw [hmaster, stratsOf_cons_mkdir, stratsOf_append, stratsOf_append] at hmem
        rcases hswc2 with h | ⟨-, hplat⟩
        · rcases hspc2 with h2 | h2 <;> rcases hsgc with h3 | h3 <;>
            rw [h, h2, h3] at hmem <;> simp at hmem
        · exact hplat
      · intro b fs2 tr heq hb
        have h2 := heq
        simp only [Prod.mk.injEq] at h2
        obtain ⟨hb2, -, -⟩ := h2
        rw [← hb2] at hb
        cases hb
      · intro b fs2 tr heq hb b2 fs3 tr2 heq2
        have h2 := heq
        simp only [Prod.mk.injEq] at h2
        obtain ⟨-, hfs2, htr2⟩ := h2
        subst hfs2
        subst htr2
        have h3 := hP.symm.trans heq2
        simp only [Prod.mk.injEq] at h3
        obtain ⟨hb3, hfs3, htr3⟩ := h3
        subst hfs3
        subst htr3
        constructor
        · intro hb2t
          rw [← hb3] at hb2t
          cases hb2t
        · intro hb2f
          rw [hG]
          exact hmaster

/-- C2 witness: on Linux with no helper script, both external strategies
fail and the request still succeeds via the generic HTML render path. -/
theorem c2_witness :
    detectFormat envMammoth "in.docx" = "docx" ∧
    fsDocx.pathExists "in.docx" = true ∧
    List.Sublist (stratsOf (convertDocument envMammoth fsDocx "in.docx" "out.pdf" "pdf" {}).2.2)
      [Strat.wordCom, Strat.pythonScript, Strat.htmlRender] ∧
    (convertDocument envMammoth fsDocx "in.docx" "out.pdf" "pdf" {}).1.success = true := by
  refine ⟨by decide, by decide, ?_, by decide⟩
  exact (c2_docx_pdf_fallback_chain envMammoth fsDocx "in.docx" "out.pdf" {}
    (by decide) (by decide)).1

/-! Claim C10. -/

/-- C10 counterexample: on Windows, a DOCX to PDF request writes a
temporary VBScript file at a path outside the output path (and outside
the output directory), so filesystem state other than the named output is
modified. -/
theorem c10_counterexample :
    (convertDocument envWinCom fsDocx "in.docx" "o/out.pdf" "pdf" {}).2.1.look
      "/tmp/vbstemp/docx2pdf.vbs" = some vbsScript ∧
    fsDocx.look "/tmp/vbstemp/docx2pdf.vbs" = none ∧
    ("/tmp/vbstemp/docx2pdf.vbs" : String) ≠ "o/out.pdf" ∧
    ("/tmp/vbstemp/docx2pdf.vbs" : String) ≠ dirname "o/out.pdf" ∧
    (convertDocument envWinCom fsDocx "in.docx" "o/out.pdf" "pdf" {}).1.success = false := by
  refine ⟨by decide, by decide, by decide, by decide, by decide⟩

theorem look_render_aux (env : Env) (fs : FS) (out html : String)
    (po : Option PdfOptions) (p : String) (hp : p ≠ out) :
    ((match env.renderPdf html po with
      | Except.error e => (Except.error e, fs, [Ev.spawn "render"])
      | Except.ok bytes =>
        (Except.ok (), fs.write out bytes, [Ev.spawn "render", Ev.writeF out])) :
        Except String Unit × FS × List Ev).2.1.look p = fs.look p := by
  cases env.renderPdf html po with
  | error e => rfl
  | ok b => exact look_write_ne fs out b p hp

theorem dirs_render_aux (env : Env) (fs : FS) (out html : String)
    (po : Option PdfOptions) :
    ((match env.renderPdf html po with
      | Except.error e => (Except.error e, fs, [Ev.spawn "render"])
      | Except.ok bytes =>
        (Except.ok (), fs.write out bytes, [Ev.spawn "render", Ev.writeF out])) :
        Except String Unit × FS × List Ev).2.1.dirs = fs.dirs := by
  cases env.renderPdf html po <;> rfl

theorem writeF_render_aux (env : Env) (fs : FS) (out html : String)
    (po : Option PdfOptions) (p : String)
    (h : Ev.writeF p ∈ ((match env.renderPdf html po with
      | Except.error e => (Except.error e, fs, [Ev.spawn "render"])
      | Except.ok bytes =>
        (Except.ok (), fs.write out bytes, [Ev.spawn "render", Ev.writeF out])) :
        Except String Unit × FS × List Ev).2.2) : p = out := by
  cases hr : env.renderPdf html po <;> rw [hr] at h <;> simp at h
  exact h

theorem look_convertToPdf_frame (env : Env) (fs : FS) (c : DocContent) (out : String)
    (opts : ConversionOptions) (p : String) (hp : p ≠ out) :
    (convertToPdf env fs c out opts).2.1.look p = fs.look p := by
  unfold convertToPdf
  exact look_render_aux env fs out _ opts.pdf_options p hp

theorem dirs_convertToPdf (env : Env) (fs : FS) (c : DocContent) (out : String)
    (opts : ConversionOptions) :
    (convertToPdf env fs c out opts).2.1.dirs = fs.dirs := by
  unfold convertToPdf
  exact dirs_render_aux env fs out _ opts.pdf_options

theorem writeF_convertToPdf (env : Env) (fs : FS) (c : DocContent) (out : String)
    (opts : ConversionOptions) (p : String)
    (h : Ev.writeF p ∈ (convertToPdf env fs c out opts).2.2) : p = out := by
  unfold convertToPdf at h
  exact writeF_render_aux env fs out _ opts.pdf_options p h

theorem look_writeDocument_frame (env : Env) (fs : FS) (c : DocContent) (out fmt : String)
    (opts : ConversionOptions) (p : String) (hp : p ≠ out) :
    (writeDocument env fs c out fmt opts).2.1.look p = fs.look p := by
  unfold writeDocument convertToDocx
  split_ifs <;>
    first
      | exact look_write_ne _ _ _ _ hp
      | exact look_convertToPdf_frame env fs c out opts p hp
      | (cases env.packDocx (c.text.splitOn "\n") with
          | error e => rfl
          | ok b => exact look_write_ne _ _ _ _ hp)
      | rfl

theorem dirs_writeDocument (env : Env) (fs : FS) (c : DocContent) (out fmt : String)
    (opts : ConversionOptions) :
    (writeDocument env fs c out fmt opts).2.1.dirs = fs.dirs := by
  unfold writeDocument convertToDocx
  split_ifs <;>
    first
      | exact dirs_convertToPdf env fs c out opts
      | (cases env.packDocx (c.text.splitOn "\n") with
          | error e => rfl
          | ok b => rfl)
      | rfl

theorem writeF_writeDocument (env : Env) (fs : FS) (c : DocContent) (out fmt : String)
    (opts : ConversionOptions) (p : String)
    (h : Ev.writeF p ∈ (writeDocument env fs c out fmt opts).2.2) : p = out := by
  unfold writeDocument convertToDocx at h
  split_ifs at h <;>
    first
      | exact writeF_convertToPdf env fs c out opts p h
      | (cases hr : env.packDocx (c.text.splitOn "\n") <;> simp [hr] at h <;> exact h)
      | (simp at h; exact h)
      | simp at h

theorem look_docGeneric_frame (env : Env) (fs : FS) (inp out tgt : String)
    (opts : ConversionOptions) (fmt : String) (p : String) (hp : p ≠ out) :
    (docGeneric env fs inp out tgt opts fmt).2.1.look p = fs.look p := by
  unfold docGeneric
  rcases hr : readDocument env fs inp fmt with ⟨r, tr⟩
  cases r with
  | error e => rfl
  | ok c =>
    have hfr := look_writeDocument_frame env fs c out tgt opts p hp
    dsimp only
    rcases hw : writeDocument env fs c out tgt opts with ⟨wr, wfs, wtr⟩
    rw [hw] at hfr
    cases wr <;> exact hfr

theorem dirs_docGeneric (env : Env) (fs : FS) (inp out tgt : String)
    (opts : ConversionOptions) (fmt : String) :
    (docGeneric env fs inp out tgt opts fmt).2.1.dirs = fs.dirs := by
  unfold docGeneric
  rcases hr : readDocument env fs inp fmt with ⟨r, tr⟩
  cases r with
  | error e => rfl
  | ok c =>
    have hd := dirs_writeDocument env fs c out tgt opts
    dsimp only
    rcases hw : writeDocument env fs c out tgt opts with ⟨wr, wfs, wtr⟩
    rw [hw] at hd
    cases wr <;> exact hd

theorem writeF_docGeneric (env : Env) (fs : FS) (inp out tgt : String)
    (opts : ConversionOptions) (fmt : String) (p : String)
    (h : Ev.writeF p ∈ (docGeneric env fs inp out tgt opts fmt).2.2) : p = out := by
  unfold docGeneric at h
  have htr := readDocument_trace env fs inp fmt
  rcases hr : readDocument env fs inp fmt with ⟨r, tr⟩
  rw [hr] at htr
  rw [hr] at h
  cases r with
  | error e =>
    rw [htr] at h
    simp at h
  | ok c =>
    have hwf := writeF_writeDocument env fs c out tgt opts p
    dsimp only at h
    rcases hw : writeDocument env fs c out tgt opts with ⟨wr, wfs, wtr⟩
    rw [hw] at hwf
    rw [hw] at h
    subst htr
    cases wr <;> simp at h <;> exact hwf h

theorem runHelper_dirs (pr : ProcResult) (fs : FS) (out cmd : String) :
    (runHelper pr fs out cmd).2.1.dirs = fs.dirs := by
  unfold runHelper
  dsimp only
  cases pr.exit with
  | none => rfl
  | some code => cases pr.writes <;> rfl

theorem runHelper_look (pr : ProcResult) (fs : FS) (out cmd p : String) (hp : p ≠ out) :
    (runHelper pr fs out cmd).2.1.look p = fs.look p := by
  unfold runHelper
  cases pr.exit with
  | none => rfl
  | some code =>
    cases pr.writes with
    | none => rfl
    | some c => exact look_write_ne fs out c p hp

theorem dirs_python (env : Env) (fs : FS) (inp out : String) :
    (convertDocxToPdfViaPython env fs inp out).2.1.dirs = fs.dirs := by
  unfold convertDocxToPdfViaPython
  dsimp only
  split_ifs <;> simp [runHelper_dirs]

theorem look_python_frame (env : Env) (fs : FS) (inp out p : String) (hp : p ≠ out) :
    (convertDocxToPdfViaPython env fs inp out).2.1.look p = fs.look p := by
  unfold convertDocxToPdfViaPython
  dsimp only
  split_ifs <;>
    simp [runHelper_look _ _ _ _ _ hp,
      runHelper_look _ ((runHelper env.python fs out "python").2.1) _ _ _ hp]

theorem writeF_python (env : Env) (fs : FS) (inp out p : String)
    (h : Ev.writeF p ∈ (convertDocxToPdfViaPython env fs inp out).2.2) : False := by
  unfold convertDocxToPdfViaPython at h
  dsimp only at h
  split_ifs at h <;> simp [runHelper_trace] at h

theorem wordCom_dirs_mono (env : Env) (fs : FS) (inp out x : String)
    (h : fs.dirs.contains x = true) :
    (convertDocxToPdfViaWordCom env fs inp out).2.1.dirs.contains x = true := by
  unfold convertDocxToPdfViaWordCom
  split_ifs with h1
  · exact h
  · cases env.cscript.exit with
    | none => exact contains_ensureDir_mono fs env.tmpDir x h
    | some code =>
      cases env.cscript.writes <;> exact contains_ensureDir_mono fs env.tmpDir x h

theorem look_wordCom_frame (env : Env) (fs : FS) (inp out p : String) (hp : p ≠ out)
    (hv : p ≠ env.tmpDir ++ "/docx2pdf.vbs") :
    (convertDocxToPdfViaWordCom env fs inp out).2.1.look p = fs.look p := by
  unfold convertDocxToPdfViaWordCom
  split_ifs with h1
  · rfl
  · cases env.cscript.exit with
    | none =>
      show (((fs.ensureDir env.tmpDir).write (env.tmpDir ++ "/docx2pdf.vbs") vbsScript)).look p
        = fs.look p
      rw [look_write_ne _ _ _ _ hv, look_ensureDir]
    | some code =>
      cases env.cscript.writes with
      | none =>
        show (((fs.ensureDir env.tmpDir).write (env.tmpDir ++ "/docx2pdf.vbs") vbsScript)).look p
          = fs.look p
        rw [look_write_ne _ _ _ _ hv, look_ensureDir]
      | some c =>
        show ((((fs.ensureDir env.tmpDir).write (env.tmpDir ++ "/docx2pdf.vbs")
            vbsScript)).write out c).look p = fs.look p
        rw [look_write_ne _ _ _ _ hp, look_write_ne _ _ _ _ hv, look_ensureDir]

theorem writeF_wordCom (env : Env) (fs : FS) (inp out p : String)
    (h : Ev.writeF p ∈ (convertDocxToPdfViaWordCom env fs inp out).2.2) :
    p = env.tmpDir ++ "/docx2pdf.vbs" ∧ env.platform = "win32" := by
  unfold convertDocxToPdfViaWordCom at h
  split_ifs at h with h1
  · simp at h
  · have hp : env.platform = "win32" := by
      by_contra hc
      exact h1 (by simpa using hc)
    cases hc : env.cscript.exit with
    | none =>
      simp [hc] at h
      exact ⟨h, hp⟩
    | some code =>
      simp [hc] at h
      exact ⟨h, hp⟩

theorem dirs_processWithJimp (env : Env) (fs : FS) (inp out tgt : String)
    (opts : ImageConversionOptions) :
    (processWithJimp env fs inp out tgt opts).2.1.dirs = fs.dirs := by
  unfold processWithJimp
  cases hl : fs.look inp with
  | none => rfl
  | some c =>
    dsimp only
    cases hr : env.jimpRun c (jimpOps opts tgt) <;> rfl

theorem look_processWithJimp_frame (env : Env) (fs : FS) (inp out tgt : String)
    (opts : ImageConversionOptions) (p : String) (hp : p ≠ out) :
    (processWithJimp env fs inp out tgt opts).2.1.look p = fs.look p := by
  unfold processWithJimp
  cases hl : fs.look inp with
  | none => rfl
  | some c =>
    dsimp only
    cases hr : env.jimpRun c (jimpOps opts tgt) with
    | error e => rfl
    | ok b => exact look_write_ne fs out b p hp

theorem writeF_processWithJimp (env : Env) (fs : FS) (inp out tgt : String)
    (opts : ImageConversionOptions) (p : String)
    (h : Ev.writeF p ∈ (processWithJimp env fs inp out tgt opts).2.2) : p = out := by
  unfold processWithJimp at h
  cases hl : fs.look inp with
  | none => simp [hl] at h
  | some c =>
    cases hr : env.jimpRun c (jimpOps opts tgt) with
    | error e => simp [hl, hr] at h
    | ok b => simp [hl, hr] at h; exact h

theorem dirs_processSvgImage (env : Env) (fs : FS) (inp out tgt : String)
    (opts : ImageConversionOptions) :
    (processSvgImage env fs inp out tgt opts).2.1.dirs = fs.dirs := by
  unfold processSvgImage
  cases hl : fs.look inp with
  | none => rfl
  | some c =>
    dsimp only
    cases hr : env.sharpRun c (svgOps opts tgt) <;> rfl

theorem look_processSvgImage_frame (env : Env) (fs : FS) (inp out tgt : String)
    (opts : ImageConversionOptions) (p : String) (hp : p ≠ out) :
    (processSvgImage env fs inp out tgt opts).2.1.look p = fs.look p := by
  unfold processSvgImage
  cases hl : fs.look inp with
  | none => rfl
  | some c =>
    dsimp only
    cases hr : env.sharpRun c (svgOps opts tgt) with
    | error e => rfl
    | ok b => exact look_write_ne fs out b p hp

theorem writeF_processSvgImage (env : Env) (fs : FS) (inp out tgt : String)
    (opts : ImageConversionOptions) (p : String)
    (h : Ev.writeF p ∈ (processSvgImage env fs inp out tgt opts).2.2) : p = out := by
  unfold processSvgImage at h
  cases hl : fs.look inp with
  | none => simp [hl] at h
  | some c =>
    cases hr : env.sharpRun c (svgOps opts tgt) with
    | error e => simp [hl, hr] at h
    | ok b => simp [hl, hr] at h; exact h

theorem dirs_convertImageToPdf (env : Env) (fs : FS) (inp out : String)
    (opts : ImageConversionOptions) :
    (convertImageToPdf env fs inp out opts).2.1.dirs = fs.dirs := by
  unfold convertImageToPdf
  cases hl : fs.look inp with
  | none => rfl
  | some c =>
    dsimp only
    cases hr : env.renderPdf (imagePdfHtml ((env.mimeLookup inp).getD "image/jpeg") c) none <;> rfl

theorem look_convertImageToPdf_frame (env : Env) (fs : FS) (inp out : String)
    (opts : ImageConversionOptions) (p : String) (hp : p ≠ out) :
    (convertImageToPdf env fs inp out opts).2.1.look p = fs.look p := by
  unfold convertImageToPdf
  cases hl : fs.look inp with
  | none => rfl
  | some c =>
    dsimp only
    cases hr : env.renderPdf (imagePdfHtml ((env.mimeLookup inp).getD "image/jpeg") c) none with
    | error e => rfl
    | ok b => exact look_write_ne fs out b p hp

theorem writeF_convertImageToPdf (env : Env) (fs : FS) (inp out : String)
    (opts : ImageConversionOptions) (p : String)
    (h : Ev.writeF p ∈ (convertImageToPdf env fs inp out opts).2.2) : p = out := by
  unfold convertImageToPdf at h
  cases hl : fs.look inp with
  | none => simp [hl] at h
  | some c =>
    cases hr : env.renderPdf (imagePdfHtml ((env.mimeLookup inp).getD "image/jpeg") c) none with
    | error e => simp [hl, hr] at h
    | ok b => simp [hl, hr] at h; exact h

theorem dirs_processImage (env : Env) (fs : FS) (inp out tgt : String)
    (opts : ImageConversionOptions) :
    (processImage env fs inp out tgt opts).2.1.dirs = fs.dirs := by
  unfold processImage
  dsimp only
  split_ifs with h1 h2 h3 h4
  · exact dirs_processSvgImage env fs inp out tgt opts
  · cases hl : fs.look inp with
    | none => exact dirs_processWithJimp env fs inp out tgt opts
    | some c =>
      dsimp only
      cases hr : env.sharpRun c (sharpOps opts (lowerStr tgt)) with
      | ok b => rfl
      | error e => exact dirs_processWithJimp env fs inp out tgt opts
  · exact dirs_processWithJimp env fs inp out tgt opts
  · exact dirs_convertImageToPdf env fs inp out opts
  · exact dirs_processWithJimp env fs inp out tgt opts

theorem look_processImage_frame (env : Env) (fs : FS) (inp out tgt : String)
    (opts : ImageConversionOptions) (p : String) (hp : p ≠ out) :
    (processImage env fs inp out tgt opts).2.1.look p = fs.look p := by
  unfold processImage
  dsimp only
  split_ifs with h1 h2 h3 h4
  · exact look_processSvgImage_frame env fs inp out tgt opts p hp
  · cases hl : fs.look inp with
    | none => exact look_processWithJimp_frame env fs inp out tgt opts p hp
    | some c =>
      dsimp only
      cases hr : env.sharpRun c (sharpOps opts (lowerStr tgt)) with
      | ok b => exact look_write_ne fs out b p hp
      | error e => exact look_processWithJimp_frame env fs inp out tgt opts p hp
  · exact look_processWithJimp_frame env fs inp out tgt opts p hp
  · exact look_convertImageToPdf_frame env fs inp out opts p hp
  · exact look_processWithJimp_frame env fs inp out tgt opts p hp

theorem writeF_processImage (env : Env) (fs : FS) (inp out tgt : String)
    (opts : ImageConversionOptions) (p : String)
    (h : Ev.writeF p ∈ (processImage env fs inp out tgt opts).2.2) : p = out := by
  unfold processImage at h
  dsimp only at h
  split_ifs at h with h1 h2 h3 h4
  · exact writeF_processSvgImage env fs inp out tgt opts p h
  · cases hl : fs.look inp with
    | none =>
      rw [hl] at h
      simp at h
      exact writeF_processWithJimp env fs inp out tgt opts p h
    | some c =>
      rw [hl] at h
      dsimp only at h
      cases hr : env.sharpRun c (sharpOps opts (lowerStr tgt)) with
      | ok b => simp [hr] at h; exact h
      | error e =>
        rw [hr] at h
        simp at h
        exact writeF_processWithJimp env fs inp out tgt opts p h
  · exact writeF_processWithJimp env fs inp out tgt opts p h
  · exact writeF_convertImageToPdf env fs inp out opts p h
  · exact writeF_processWithJimp env fs inp out tgt opts p h

theorem convertImageBody_dirs_mono (env : Env) (fs : FS) (inp out tgt : String)
    (opts : ImageConversionOptions) (x : String) (h : fs.dirs.contains x = true) :
    (convertImageBody env fs inp out tgt opts).2.1.dirs.contains x = true := by
  unfold convertImageBody
  dsimp only
  split_ifs with h1
  · exact h
  · have hm := contains_ensureDir_mono fs (dirname out) x h
    cases hl : (fs.ensureDir (dirname out)).look inp with
    | none => exact hm
    | some c =>
      dsimp only
      have hd := dirs_processImage env (fs.ensureDir (dirname out)) inp out tgt opts
      rcases hp2 : processImage env (fs.ensureDir (dirname out)) inp out tgt opts with ⟨r, fs2, tr⟩
      rw [hp2] at hd
      cases r with
      | error e => rw [show ((Except.error e : Except String Unit), fs2, tr).2.1 = fs2 from rfl] at hd ⊢; rw [hd]; exact hm
      | ok u =>
        cases ho : fs2.look out with
        | none => rw [show ((Except.ok u : Except String Unit), fs2, tr).2.1 = fs2 from rfl] at hd; dsimp only; rw [ho]; dsimp only; rw [hd]; exact hm
        | some oc => rw [show ((Except.ok u : Except String Unit), fs2, tr).2.1 = fs2 from rfl] at hd; dsimp only; rw [ho]; dsimp only; rw [hd]; exact hm

theorem look_convertImageBody_frame (env : Env) (fs : FS) (inp out tgt : String)
    (opts : ImageConversionOptions) (p : String) (hp : p ≠ out) :
    (convertImageBody env fs inp out tgt opts).2.1.look p = fs.look p := by
  unfold convertImageBody
  dsimp only
  split_ifs with h1
  · rfl
  · cases hl : (fs.ensureDir (dirname out)).look inp with
    | none => exact look_ensureDir fs (dirname out) p
    | some c =>
      dsimp only
      have hf := look_processImage_frame env (fs.ensureDir (dirname out)) inp out tgt opts p hp
      rcases hp2 : processImage env (fs.ensureDir (dirname out)) inp out tgt opts with ⟨r, fs2, tr⟩
      rw [hp2] at hf
      have hf2 : fs2.look p = fs.look p := by
        rw [show ((r, fs2, tr).2.1 : FS) = fs2 from rfl] at hf
        rw [hf, look_ensureDir]
      cases r with
      | error e => exact hf2
      | ok u =>
        cases ho : fs2.look out with
        | none => dsimp only; rw [ho]; exact hf2
        | some oc => dsimp only; rw [ho]; exact hf2

theorem writeF_convertImageBody (env : Env) (fs : FS) (inp out tgt : String)
    (opts : ImageConversionOptions) (p : String)
    (h : Ev.writeF p ∈ (convertImageBody env fs inp out tgt opts).2.2) : p = out := by
  unfold convertImageBody at h
  dsimp only at h
  split_ifs at h with h1
  · simp at h
  · cases hl : (fs.ensureDir (dirname out)).look inp with
    | none => rw [hl] at h; simp at h
    | some c =>
      rw [hl] at h
      dsimp only at h
      have hw := writeF_processImage env (fs.ensureDir (dirname out)) inp out tgt opts p
      rcases hp2 : processImage env (fs.ensureDir (dirname out)) inp out tgt opts with ⟨r, fs2, tr⟩
      rw [hp2] at h hw
      cases r with
      | error e => simp at h; exact hw h
      | ok u =>
        cases ho : fs2.look out with
        | none => dsimp only at h; rw [ho] at h; simp at h; exact hw h
        | some oc => dsimp only at h; rw [ho] at h; simp at h; exact hw h

theorem convertImage_dirs_mono (env : Env) (fs : FS) (inp out tgt : String)
    (opts : ImageConversionOptions) (x : String) (h : fs.dirs.contains x = true) :
    (convertImage env fs inp out tgt opts).2.1.dirs.contains x = true := by
  unfold convertImage
  have hb := convertImageBody_dirs_mono env fs inp out tgt opts x h
  rcases hB : convertImageBody env fs inp out tgt opts with ⟨r, fs2, tr⟩
  rw [hB] at hb
  cases r <;> exact hb

theorem look_convertImage_frame (env : Env) (fs : FS) (inp out tgt : String)
    (opts : ImageConversionOptions) (p : String) (hp : p ≠ out) :
    (convertImage env fs inp out tgt opts).2.1.look p = fs.look p := by
  unfold convertImage
  have hb := look_convertImageBody_frame env fs inp out tgt opts p hp
  rcases hB : convertImageBody env fs inp out tgt opts with ⟨r, fs2, tr⟩
  rw [hB] at hb
  cases r <;> exact hb

theorem writeF_convertImage (env : Env) (fs : FS) (inp out tgt : String)
    (opts : ImageConversionOptions) (p : String)
    (h : Ev.writeF p ∈ (convertImage env fs inp out tgt opts).2.2) : p = out := by
  unfold convertImage at h
  have hb := writeF_convertImageBody env fs inp out tgt opts p
  rcases hB : convertImageBody env fs inp out tgt opts with ⟨r, fs2, tr⟩
  rw [hB] at h hb
  cases r <;> exact hb h

theorem convertDocument_state_eq (env : Env) (fs : FS) (inp out tgt : String)
    (opts : ConversionOptions) :
    (convertDocument env fs inp out tgt opts).2 =
      (convertDocumentBody env fs inp out tgt opts).2 := by
  unfold convertDocument
  rcases hB : convertDocumentBody env fs inp out tgt opts with ⟨r, fs2, tr⟩
  cases r <;> rfl

theorem convertDocumentBody_dirs (env : Env) (fs : FS) (inp out tgt : String)
    (opts : ConversionOptions) (hex : fs.pathExists inp = true) :
    (convertDocumentBody env fs inp out tgt opts).2.1.dirs.contains (dirname out) = true := by
  unfold convertDocumentBody
  dsimp only
  rw [if_neg (by simp [hex])]
  have h0 : (fs.ensureDir (dirname out)).dirs.contains (dirname out) = true :=
    contains_ensureDir_self fs (dirname out)
  by_cases hdp : ((detectFormat env inp == "docx") && (tgt == "pdf")) = true
  · rw [if_pos hdp]
    have hm1 := wordCom_dirs_mono env (fs.ensureDir (dirname out)) inp out (dirname out) h0
    rcases hW : convertDocxToPdfViaWordCom env (fs.ensureDir (dirname out)) inp out with ⟨b1, fs2, tr1⟩
    rw [hW] at hm1
    cases b1 with
    | true => exact hm1
    | false =>
      dsimp only
      have hd2 := dirs_python env fs2 inp out
      rcases hP : convertDocxToPdfViaPython env fs2 inp out with ⟨b2, fs3, tr2⟩
      rw [hP] at hd2
      have hd3 : fs3.dirs = fs2.dirs := hd2
      cases b2 with
      | true =>
        dsimp only
        rw [hd3]
        exact hm1
      | false =>
        dsimp only
        rw [dirs_docGeneric env fs3 inp out tgt opts (detectFormat env inp), hd3]
        exact hm1
  · rw [if_neg hdp]
    by_cases himg : (docImageFormats.contains (detectFormat env inp)) = true
    · rw [if_pos himg]
      dsimp only
      exact convertImage_dirs_mono env (fs.ensureDir (dirname out)) inp out tgt
        (opts.image_options.getD {}) (dirname out) h0
    · rw [if_neg himg]
      dsimp only
      rw [dirs_docGeneric env (fs.ensureDir (dirname out)) inp out tgt opts (detectFormat env inp)]
      exact h0

theorem convertDocumentBody_writeF (env : Env) (fs : FS) (inp out tgt : String)
    (opts : ConversionOptions) (p : String)
    (h : Ev.writeF p ∈ (convertDocumentBody env fs inp out tgt opts).2.2) :
    p = out ∨
      (p = env.tmpDir ++ "/docx2pdf.vbs" ∧ env.platform = "win32" ∧
        detectFormat env inp = "docx" ∧ tgt = "pdf") := by
  unfold convertDocumentBody at h
  dsimp only at h
  by_cases hex : (!fs.pathExists inp) = true
  · rw [if_pos hex] at h; simp at h
  · rw [if_neg hex] at h
    by_cases hdp : ((detectFormat env inp == "docx") && (tgt == "pdf")) = true
    · obtain ⟨hd1, hd2⟩ : detectFormat env inp = "docx" ∧ tgt = "pdf" := by simpa using hdp
      rw [if_pos hdp] at h
      have hwf := writeF_wordCom env (fs.ensureDir (dirname out)) inp out p
      rcases hW : convertDocxToPdfViaWordCom env (fs.ensureDir (dirname out)) inp out with ⟨b1, fs2, tr1⟩
      rw [hW] at h hwf
      cases b1 with
      | true =>
        dsimp only at h
        simp at h
        exact Or.inr ⟨(hwf h).1, (hwf h).2, hd1, hd2⟩
      | false =>
        dsimp only at h
        have hpf := writeF_python env fs2 inp out p
        rcases hP : convertDocxToPdfViaPython env fs2 inp out with ⟨b2, fs3, tr2⟩
        rw [hP] at h hpf
        cases b2 with
        | true =>
          dsimp only at h
          simp at h
          rcases h with h | h
          · exact Or.inr ⟨(hwf h).1, (hwf h).2, hd1, hd2⟩
          · exact absurd h hpf
        | false =>
          dsimp only at h
          have hgf := writeF_docGeneric env fs3 inp out tgt opts (detectFormat env inp) p
          simp at h
          rcases h with h | h | h
          · exact Or.inr ⟨(hwf h).1, (hwf h).2, hd1, hd2⟩
          · exact absurd h hpf
          · exact Or.inl (hgf h)
    · rw [if_neg hdp] at h
      by_cases himg : (docImageFormats.contains (detectFormat env inp)) = true
      · rw [if_pos himg] at h
        dsimp only at h
        have hi := writeF_convertImage env (fs.ensureDir (dirname out)) inp out tgt
          (opts.image_options.getD {}) p
        simp at h
        exact Or.inl (hi h)
      · rw [if_neg himg] at h
        dsimp only at h
        have hg := writeF_docGeneric env (fs.ensureDir (dirname out)) inp out tgt opts
          (detectFormat env inp) p
        simp at h
        exact Or.inl (hg h)

theorem convertDocumentBody_look (env : Env) (fs : FS) (inp out tgt : String)
    (opts : ConversionOptions) (p : String) (hp : p ≠ out)
    (hv : p ≠ env.tmpDir ++ "/docx2pdf.vbs") :
    (convertDocumentBody env fs inp out tgt opts).2.1.look p = fs.look p := by
  unfold convertDocumentBody
  dsimp only
  by_cases hex : (!fs.pathExists inp) = true
  · rw [if_pos hex]
  · rw [if_neg hex]
    by_cases hdp : ((detectFormat env inp == "docx") && (tgt == "pdf")) = true
    · rw [if_pos hdp]
      have hwf := look_wordCom_frame env (fs.ensureDir (dirname out)) inp out p hp hv
      rcases hW : convertDocxToPdfViaWordCom env (fs.ensureDir (dirname out)) inp out with ⟨b1, fs2, tr1⟩
      rw [hW] at hwf
      have hwf2 : fs2.look p = fs.look p := by
        rw [show ((b1, fs2, tr1).2.1 : FS) = fs2 from rfl] at hwf
        rw [hwf, look_ensureDir]
      cases b1 with
      | true => exact hwf2
      | false =>
        dsimp only
        have hpf := look_python_frame env fs2 inp out p hp
        rcases hP : convertDocxToPdfViaPython env fs2 inp out with ⟨b2, fs3, tr2⟩
        rw [hP] at hpf
        have hpf2 : fs3.look p = fs.look p := by
          rw [show ((b2, fs3, tr2).2.1 : FS) = fs3 from rfl] at hpf
          rw [hpf, hwf2]
        cases b2 with
        | true => exact hpf2
        | false =>
          dsimp only
          rw [look_docGeneric_frame env fs3 inp out tgt opts (detectFormat env inp) p hp]
          exact hpf2
    · rw [if_neg hdp]
      by_cases himg : (docImageFormats.contains (detectFormat env inp)) = true
      · rw [if_pos himg]
        dsimp only
        rw [look_convertImage_frame env (fs.ensureDir (dirname out)) inp out tgt
          (opts.image_options.getD {}) p hp, look_ensureDir]
      · rw [if_neg himg]
        dsimp only
        rw [look_docGeneric_frame env (fs.ensureDir (dirname out)) inp out tgt opts
          (detectFormat env inp) p hp, look_ensureDir]

/-- C10 (amended): for any request whose input file exists, convertDocument
creates the output directory before the target format is validated (so it is
present even when the request fails); every file written is either the named
output path or, only on win32 DOCX to PDF requests, the temporary VBScript
file tmpDir/docx2pdf.vbs; and every other path of the filesystem is left
unchanged. -/
theorem c10_temp_file_frame (env : Env) (fs : FS) (inp out tgt : String)
    (opts : ConversionOptions) (hex : fs.pathExists inp = true) :
    (convertDocument env fs inp out tgt opts).2.1.dirs.contains (dirname out) = true ∧
    (∀ p, Ev.writeF p ∈ (convertDocument env fs inp out tgt opts).2.2 →
      p = out ∨
        (p = env.tmpDir ++ "/docx2pdf.vbs" ∧ env.platform = "win32" ∧
          detectFormat env inp = "docx" ∧ tgt = "pdf")) ∧
    (∀ p, p ≠ out → p ≠ env.tmpDir ++ "/docx2pdf.vbs" →
      (convertDocument env fs inp out tgt opts).2.1.look p = fs.look p) := by
  have hst := convertDocument_state_eq env fs inp out tgt opts
  refine ⟨?_, ?_, ?_⟩
  · rw [hst]
    exact convertDocumentBody_dirs env fs inp out tgt opts hex
  · intro p hp
    rw [hst] at hp
    exact convertDocumentBody_writeF env fs inp out tgt opts p hp
  · intro p hp hv
    rw [hst]
    exact convertDocumentBody_look env fs inp out tgt opts p hp hv

/-- C10 witness: a failing request (txt to the unsupported rtf target) still
leaves the output directory created, and the frame theorem applies to it. -/
theorem c10_witness :
    fsTxt.pathExists "in.txt" = true ∧
    (convertDocument env0 fsTxt "in.txt" "o/out.rtf" "rtf" {}).2.1.dirs.contains
      (dirname "o/out.rtf") = true :=
  ⟨by decide,
    (c10_temp_file_frame env0 fsTxt "in.txt" "o/out.rtf" "rtf" {} (by decide)).1⟩
